import Mathlib

/-
Verification development for the Josys NLP query pipeline.

The definitions below are a shallow embedding of the two relevant source
files:
  * csv_to_sqlite.py        (column-name sanitization)
  * nlp_openai_interface.py (NL-to-SQL pipeline: oracle path, query cache,
                             keyword fallback, insight synthesis)

Modelling conventions:
  * Python strings are Lean `String`s; the regex class backslash-w is
    modelled as ASCII alphanumeric-or-underscore; Python `str.strip()` is
    modelled over the four core whitespace characters.
  * SQL queries issued by the synthesis helpers are embedded as list
    operations over an explicit `Database` of typed rows; COUNT(DISTINCT x)
    becomes `List.eraseDups` followed by `length`; LIKE with wildcards on
    both sides becomes case-insensitive substring search (wildcard
    metacharacters inside the searched text are not modelled).
  * The sqlite connection is modelled by `Conn`: either a working database
    or a uniformly failing connection (every query raises).  This mirrors
    the observable behaviour of Python try/except blocks around queries.
  * Wall-clock elapsed time is modelled as the constant 0, and the literal
    similarity score 0.8 attached to fallback records is dropped (it is a
    floating-point constant never inspected by any claim).
  * String literals from the source that contain quote characters are
    modelled with those quote characters removed.
  * Python dicts with optional keys are modelled by structures whose
    optional fields have type `Option`; a missing key is `none`.
-/

/-! ## Generic string and list helpers -/

/-- Occurrence of `pat` as a contiguous sublist of `s` (SQL LIKE with
wildcards on both ends, over char lists). -/
def listInfix (pat : List Char) : List Char → Bool
  | [] => pat.isEmpty
  | c :: t => pat.isPrefixOf (c :: t) || listInfix pat t

/-- Python `pat in s` substring test. -/
def strContains (s pat : String) : Bool := listInfix pat.data s.data

/-- Drop the trailing run of characters satisfying `p` (the right half of
Python `str.strip`). -/
def dropTrailWhile (p : Char → Bool) : List Char → List Char
  | [] => []
  | a :: rest =>
    match dropTrailWhile p rest with
    | [] => if p a then [] else [a]
    | r => a :: r

/-- Python `str.strip(chars)`: drop the leading and trailing runs of
characters satisfying `p`. -/
def stripWhile (p : Char → Bool) (l : List Char) : List Char :=
  dropTrailWhile p (l.dropWhile p)

/-- Python `str.upper()` (character-wise, ASCII case map). -/
def String.upper (s : String) : String := ⟨s.data.map Char.toUpper⟩

/-- Python `str.lower()` (character-wise, ASCII case map). -/
def String.lower (s : String) : String := ⟨s.data.map Char.toLower⟩

/-- Python `str.strip()` with no argument: whitespace on both ends. -/
def String.strip (s : String) : String := ⟨stripWhile Char.isWhitespace s.data⟩

/-- Python `str.startswith`. -/
def String.startswith (s pre : String) : Bool := pre.data.isPrefixOf s.data

/-- Python `str.endswith`. -/
def String.endswith (s suffix : String) : Bool := suffix.data.isSuffixOf s.data

/-- Replace every non-overlapping occurrence of `pat` (nonempty) from left
to right, with enough fuel to scan the whole list. -/
def replaceFuel (repl pat : List Char) : Nat → List Char → List Char
  | 0, l => l
  | _ + 1, [] => []
  | fuel + 1, c :: t =>
    if pat.isPrefixOf (c :: t) then repl ++ replaceFuel repl pat fuel ((c :: t).drop pat.length)
    else c :: replaceFuel repl pat fuel t

/-- Python `str.replace(pat, repl)` for a nonempty pattern (the pipeline
only replaces the literal code-fence markers). -/
def py_replace (s pat repl : String) : String :=
  if pat.data.isEmpty then s else ⟨replaceFuel repl.data pat.data s.data.length s.data⟩

/-- SQL `UPPER(v) LIKE UPPER(%q%)`: case-insensitive substring match. -/
def upperLike (v q : String) : Bool := strContains v.upper q.upper

/-! ## csv_to_sqlite.py: clean_column_name -/

/-- Character class kept by the regex substitution `[^\w\-] -> _`:
word characters (modelled as ASCII alphanumeric or underscore). -/
def isWordChar (c : Char) : Bool := c.isAlphanum || c == '_'

/-- A character survives the substitution unchanged iff it is a word
character or a hyphen. -/
def keepChar (c : Char) : Bool := isWordChar c || c == '-'

/-- The substitution `re.sub([^\w\-], _, s)`, one character at a time. -/
def substChar (c : Char) : Char := if keepChar c then c else '_'

/-- The substitution `re.sub(_+, _, s)`: collapse every run of consecutive
underscores to a single underscore. -/
def collapseUnderscores : List Char → List Char
  | [] => []
  | [c] => [c]
  | a :: b :: rest =>
    if a == '_' && b == '_' then collapseUnderscores (b :: rest)
    else a :: collapseUnderscores (b :: rest)

/-- `clean_column_name` from csv_to_sqlite.py, over a list of characters:
strip whitespace, replace non-word non-hyphen characters by underscore,
collapse runs of underscores, strip boundary underscores, prefix `col_`
when the result starts with a digit, fall back to `unnamed_column` when
the result is empty.  `clean_finalize` is the last two steps (digit
prefixing and the empty fallback), split out for the proofs below. -/
def clean_finalize (c4 : List Char) : List Char :=
  let c5 := match c4 with
    | [] => ([] : List Char)
    | a :: _ => if a.isDigit then 'c' :: 'o' :: 'l' :: '_' :: c4 else c4
  if c5.isEmpty then "unnamed_column".data else c5

def clean_column_name_chars (cs : List Char) : List Char :=
  let c1 := stripWhile Char.isWhitespace cs
  let c2 := c1.map substChar
  let c3 := collapseUnderscores c2
  clean_finalize (stripWhile (fun c => c == '_') c3)

/-- `clean_column_name` from csv_to_sqlite.py. -/
def clean_column_name (s : String) : String := ⟨clean_column_name_chars s.data⟩

/-! ## Data model: the sqlite store as typed rows

The columns modelled for each table are exactly those the core pipeline
reads: the eight device columns projected by the keyword fallback and the
synthesis queries, the seven provision columns projected by the fallback
plus the two Notion license columns, and the app_portfolio columns touched
by the cross-reference and component queries. -/

structure DeviceRow where
  Asset_Number : String
  Device_Type : String
  Manufacturer : String
  Model_Name : String
  Device_Status : String
  Assigned_User_s_Email : String
  City : String
  Region : String
deriving DecidableEq

structure ProvisionRow where
  User_ID : String
  First_Name : String
  Last_Name : String
  Email : String
  Role : String
  Status : String
  Work_Location_Code : String
  Notion_Josys_inc : String
  Notion_Josys_public : String
deriving DecidableEq

structure AppPortfolioRow where
  App : String
  Identifier : String
  ID : String
  Role_s : String
  Account_Status : String
  First_Name : String
  Last_Name : String
  Email : String
  Department_s : String
deriving DecidableEq

structure Database where
  devices : List DeviceRow
  provisions : List ProvisionRow
  app_portfolio : List AppPortfolioRow
deriving DecidableEq

/-- The sqlite connection: either a working store, or a connection on which
every executed query raises (modelling the try/except blocks in the
source uniformly). -/
inductive Conn where
  | ok (db : Database)
  | failing (msg : String)

/-- Run one of the fixed synthesis queries on the connection; a failing
connection raises with its message. -/
def runQ (conn : Conn) (f : Database → α) : Except String α :=
  match conn with
  | .ok db => .ok (f db)
  | .failing m => .error m

/-! ## Embedded synthesis queries (nlp_openai_interface.py)

Each definition transcribes one literal SQL text from the source.
`ORDER BY` clauses are dropped: no claim depends on user ordering, and the
tie order is unspecified at the SQL level anyway.  `SELECT DISTINCT` and
`COUNT(DISTINCT _)` are `List.eraseDups` (first occurrence kept). -/

/-- COUNT(DISTINCT Assigned_User_s_Email) FROM devices WHERE
UPPER(Manufacturer) = LENOVO AND Device_Status = In-use AND the email is
present (used by the breakdown and the Lenovo cross-reference). -/
def lenovo_user_count (db : Database) : Nat :=
  (((db.devices.filter (fun d =>
      d.Manufacturer.upper == "LENOVO" && d.Device_Status == "In-use"
        && d.Assigned_User_s_Email != "")).map
    (fun d => d.Assigned_User_s_Email)).eraseDups).length

/-- COUNT(DISTINCT Email) FROM app_portfolio WHERE UPPER(App) LIKE %AWS%
AND UPPER(Role_s) LIKE %ADMINISTRATOR% AND Account_Status = Activated. -/
def aws_admin_count (db : Database) : Nat :=
  (((db.app_portfolio.filter (fun ap =>
      strContains ap.App.upper "AWS" && strContains ap.Role_s.upper "ADMINISTRATOR"
        && ap.Account_Status == "Activated")).map (fun ap => ap.Email)).eraseDups).length

/-- COUNT(DISTINCT Email) FROM provisions WHERE either Notion column is
Activated. -/
def notion_user_count (db : Database) : Nat :=
  (((db.provisions.filter (fun p =>
      p.Notion_Josys_inc == "Activated" || p.Notion_Josys_public == "Activated")).map
    (fun p => p.Email)).eraseDups).length

/-- COUNT(DISTINCT d.Assigned_User_s_Email) over devices JOIN app_portfolio
ON the assigned email, Lenovo manufacturer, AWS administrator access
(no Device_Status filter in this particular query). -/
def lenovo_aws_count (db : Database) : Nat :=
  ((((db.devices.filter (fun d => d.Manufacturer.upper == "LENOVO")).flatMap (fun d =>
      (db.app_portfolio.filter (fun ap =>
        d.Assigned_User_s_Email == ap.Email
          && strContains ap.App.upper "AWS"
          && strContains ap.Role_s.upper "ADMINISTRATOR"
          && ap.Account_Status == "Activated")).map
        (fun _ => d.Assigned_User_s_Email))).eraseDups)).length

/-- Row shape produced by the three-table cross-reference joins that carry
a device model. -/
structure DeviceJoinRow where
  First_Name : String
  Last_Name : String
  Email : String
  Identifier : String
  Role_s : String
  Model_Name : String
deriving DecidableEq

/-- SELECT DISTINCT over devices JOIN provisions JOIN app_portfolio for
in-use devices of the given manufacturer whose user has activated AWS
administrator access. -/
def manufacturer_aws_users (mfg : String) (db : Database) : List DeviceJoinRow :=
  (((db.devices.filter (fun d =>
      d.Manufacturer.upper == mfg && d.Device_Status == "In-use")).flatMap (fun d =>
    (db.provisions.filter (fun p => d.Assigned_User_s_Email == p.Email)).flatMap (fun p =>
      (db.app_portfolio.filter (fun ap =>
        p.Email == ap.Email
          && strContains ap.App.upper "AWS"
          && strContains ap.Role_s.upper "ADMINISTRATOR"
          && ap.Account_Status == "Activated")).map (fun ap =>
        ⟨p.First_Name, p.Last_Name, p.Email, ap.Identifier, ap.Role_s, d.Model_Name⟩))))).eraseDups

/-- The Lenovo + AWS admin user listing of _analyze_lenovo_aws_crossref. -/
def lenovo_aws_users (db : Database) : List DeviceJoinRow :=
  manufacturer_aws_users "LENOVO" db

/-- The Apple + AWS admin user listing of _analyze_apple_aws_crossref,
including its LIMIT 10. -/
def apple_aws_users (db : Database) : List DeviceJoinRow :=
  (manufacturer_aws_users "APPLE" db).take 10

/-- COUNT(DISTINCT Assigned_User_s_Email) FROM devices WHERE
UPPER(Manufacturer) = APPLE AND Device_Status = In-use (note: unlike the
Lenovo count, no email-presence filter). -/
def apple_user_count (db : Database) : Nat :=
  (((db.devices.filter (fun d =>
      d.Manufacturer.upper == "APPLE" && d.Device_Status == "In-use")).map
    (fun d => d.Assigned_User_s_Email)).eraseDups).length

/-- Row shape produced by the AWS + Notion cross-reference join, whose last
column is the CASE expression naming the Notion license type. -/
structure NotionJoinRow where
  First_Name : String
  Last_Name : String
  Email : String
  Identifier : String
  Role_s : String
  notion_kind : String
deriving DecidableEq

/-- The CASE WHEN expression of _analyze_aws_notion_crossref. -/
def notionTypeOf (p : ProvisionRow) : String :=
  if p.Notion_Josys_inc == "Activated" then "Josys Inc"
  else if p.Notion_Josys_public == "Activated" then "Josys Public"
  else "Unknown"

/-- SELECT DISTINCT ... LIMIT 10 over app_portfolio JOIN provisions for AWS
administrators holding an activated Notion license. -/
def aws_notion_users (db : Database) : List NotionJoinRow :=
  ((((db.app_portfolio.filter (fun ap =>
      strContains ap.App.upper "AWS"
        && strContains ap.Role_s.upper "ADMINISTRATOR"
        && ap.Account_Status == "Activated")).flatMap (fun ap =>
    (db.provisions.filter (fun p =>
      ap.Email == p.Email
        && (p.Notion_Josys_inc == "Activated" || p.Notion_Josys_public == "Activated"))).map
      (fun p =>
        (⟨p.First_Name, p.Last_Name, p.Email, ap.Identifier, ap.Role_s, notionTypeOf p⟩ :
          NotionJoinRow)))).eraseDups)).take 10

/-- Row shape of the geographic cross-reference join (no device model). -/
structure GeoJoinRow where
  First_Name : String
  Last_Name : String
  Email : String
  Identifier : String
  Role_s : String
deriving DecidableEq

/-- The fixed allow-list of Japanese first names used by the geographic
cross-reference query. -/
def japanNameList : List String := ["tomoyo", "mari", "kohei", "yuki", "akira"]

/-- SELECT DISTINCT ... LIMIT 10: AWS administrators whose lowered first
name is in the allow-list or whose email ends with .jp. -/
def japan_aws_users (db : Database) : List GeoJoinRow :=
  ((((db.app_portfolio.filter (fun ap =>
      strContains ap.App.upper "AWS"
        && strContains ap.Role_s.upper "ADMINISTRATOR"
        && ap.Account_Status == "Activated")).flatMap (fun ap =>
    (db.provisions.filter (fun p =>
      ap.Email == p.Email
        && (japanNameList.contains p.First_Name.lower || p.Email.endswith ".jp"))).map
      (fun p =>
        (⟨p.First_Name, p.Last_Name, p.Email, ap.Identifier, ap.Role_s⟩ : GeoJoinRow)))).eraseDups)).take 10

/-! ## Cross-reference entries (_generate_cross_references and helpers) -/

/-- One user row inside a cross-reference entry.  `device_model` is present
for the device joins, `notion_type` for the AWS + Notion join. -/
structure CrossRefUser where
  name : String
  email : String
  aws_identifier : String
  aws_role : String
  device_model : Option String := none
  notion_type : Option String := none
deriving DecidableEq

/-- A cross-reference entry as built by the _analyze_*_crossref helpers.
Optional fields model dict keys that only some branches set. -/
structure CrossRef where
  type : String
  title : String
  status : String
  count : Option Nat := none
  total_base : Option Nat := none
  message : String
  blocker : Option String := none
  note : Option String := none
  users : List CrossRefUser
deriving DecidableEq

/-- User projection used by the device-join cross-references
(name is first + last, stripped). -/
def mkDeviceUser (u : DeviceJoinRow) : CrossRefUser :=
  { name := (u.First_Name ++ " " ++ u.Last_Name).strip
    email := u.Email
    aws_identifier := u.Identifier
    aws_role := u.Role_s
    device_model := some u.Model_Name }

/-- User projection used by the AWS + Notion cross-reference. -/
def mkNotionUser (u : NotionJoinRow) : CrossRefUser :=
  { name := (u.First_Name ++ " " ++ u.Last_Name).strip
    email := u.Email
    aws_identifier := u.Identifier
    aws_role := u.Role_s
    notion_type := some u.notion_kind }

/-- User projection used by the geographic cross-reference. -/
def mkGeoUser (u : GeoJoinRow) : CrossRefUser :=
  { name := (u.First_Name ++ " " ++ u.Last_Name).strip
    email := u.Email
    aws_identifier := u.Identifier
    aws_role := u.Role_s }

/-- _analyze_lenovo_aws_crossref: count the Lenovo base set, list the
intersection users, classify as none/found; an exception in either query
yields an error-status entry. -/
def _analyze_lenovo_aws_crossref (conn : Conn) : CrossRef :=
  match runQ conn lenovo_user_count, runQ conn lenovo_aws_users with
  | .ok lenovo_count, .ok users =>
    if users.length == 0 then
      { type := "intersection", title := "Lenovo + AWS Admin", status := "none"
        count := some 0, total_base := some lenovo_count
        message := "None of the " ++ toString lenovo_count
          ++ " Lenovo laptop users have AWS Administrator access"
        blocker := some "This is the primary blocker for the query", users := [] }
    else
      { type := "intersection", title := "Lenovo + AWS Admin", status := "found"
        count := some users.length, total_base := some lenovo_count
        message := toString users.length ++ " users found"
        users := users.map mkDeviceUser }
  | .error e, _ =>
    { type := "error", title := "Lenovo + AWS Admin Analysis Error", status := "error"
      message := e, users := [] }
  | _, .error e =>
    { type := "error", title := "Lenovo + AWS Admin Analysis Error", status := "error"
      message := e, users := [] }

/-- _analyze_aws_notion_crossref: list AWS administrators holding a Notion
license; classify as none/found.  Note: the none branch carries no
total_base field.  An exception yields an error-status entry. -/
def _analyze_aws_notion_crossref (conn : Conn) : CrossRef :=
  match runQ conn aws_notion_users with
  | .ok users =>
    if users.length == 0 then
      { type := "intersection", title := "AWS Admin + Notion", status := "none"
        count := some 0
        message := "No AWS Administrators have active Notion licenses", users := [] }
    else
      { type := "intersection", title := "AWS Admin + Notion", status := "found"
        count := some users.length
        message := toString users.length ++ " users found"
        users := users.map mkNotionUser }
  | .error e =>
    { type := "error", title := "AWS Admin + Notion Analysis Error", status := "error"
      message := e, users := [] }

/-- _analyze_apple_aws_crossref: like the Lenovo analyzer, but the base
count is only queried in the empty branch, the found branch carries no
total_base, and an exception returns None (no entry at all). -/
def _analyze_apple_aws_crossref (conn : Conn) : Option CrossRef :=
  match runQ conn apple_aws_users with
  | .error _ => none
  | .ok users =>
    if users.length == 0 then
      match runQ conn apple_user_count with
      | .error _ => none
      | .ok apple_count =>
        some { type := "intersection", title := "Apple + AWS Admin", status := "none"
               count := some 0, total_base := some apple_count
               message := "None of the " ++ toString apple_count
                 ++ " Apple laptop users have AWS Administrator access"
               users := [] }
    else
      some { type := "intersection", title := "Apple + AWS Admin", status := "found"
             count := some users.length
             message := toString users.length ++ " users found"
             users := users.map mkDeviceUser }

/-- _analyze_geographic_aws_crossref: only the Japan branch ever returns an
entry; the India branch and any exception return None. -/
def _analyze_geographic_aws_crossref (question_lower : String) (conn : Conn) :
    Option CrossRef :=
  let location :=
    if strContains question_lower "japan" then "Japan"
    else if strContains question_lower "india" then "India"
    else "Unknown"
  if location == "Japan" then
    match runQ conn japan_aws_users with
    | .error _ => none
    | .ok users =>
      if users.length == 0 then
        some { type := "intersection", title := "Japan + AWS Admin", status := "none"
               count := some 0
               message := "No AWS Administrators identified as Japan-based employees"
               note := some "Based on name patterns and .jp email domains", users := [] }
      else
        some { type := "intersection", title := "Japan + AWS Admin", status := "found"
               count := some users.length
               message := toString users.length ++ " users found"
               note := some "Based on name patterns and .jp email domains"
               users := users.map mkGeoUser }
  else none

/-- _generate_cross_references: run the keyword-triggered analyzers and keep
the entries they return (None results are dropped by the `if cross_ref`
guards in the source).  The second parameter mirrors the unused
breakdown_data argument of the source method. -/
def _generate_cross_references (question_lower : String) (conn : Conn) :
    List CrossRef :=
  (if strContains question_lower "lenovo" && strContains question_lower "aws"
      && strContains question_lower "admin" then
    [_analyze_lenovo_aws_crossref conn]
  else [])
  ++ (if strContains question_lower "aws" && strContains question_lower "admin"
        && strContains question_lower "notion" then
    [_analyze_aws_notion_crossref conn]
  else [])
  ++ (if (strContains question_lower "apple" || strContains question_lower "macbook")
        && strContains question_lower "aws" && strContains question_lower "admin" then
    (_analyze_apple_aws_crossref conn).toList
  else [])
  ++ (if (strContains question_lower "japan" || strContains question_lower "india")
        && strContains question_lower "aws" then
    (_analyze_geographic_aws_crossref question_lower conn).toList
  else [])

/-! ## Breakdown analysis (_analyze_query_breakdown and friends) -/

/-- The breakdown dict: each key is present iff the matching keyword family
triggered and its query succeeded; `error` records the first exception. -/
structure Breakdown where
  lenovo_users : Option Nat := none
  aws_admins : Option Nat := none
  notion_users : Option Nat := none
  lenovo_aws : Option Nat := none
  error : Option String := none
deriving DecidableEq

/-- Fourth breakdown step: the Lenovo x AWS intersection count, run only
when both earlier keys were written. -/
def _aqb_cross (conn : Conn) (b : Breakdown) : Breakdown :=
  if b.lenovo_users.isSome && b.aws_admins.isSome then
    match runQ conn lenovo_aws_count with
    | .error m => { b with error := some m }
    | .ok c => { b with lenovo_aws := some c }
  else b

/-- Third breakdown step: Notion license count. -/
def _aqb_notion (ql : String) (conn : Conn) (b : Breakdown) : Breakdown :=
  if strContains ql "notion" then
    match runQ conn notion_user_count with
    | .error m => { b with error := some m }
    | .ok c => _aqb_cross conn { b with notion_users := some c }
  else _aqb_cross conn b

/-- Second breakdown step: AWS administrator count. -/
def _aqb_aws (ql : String) (conn : Conn) (b : Breakdown) : Breakdown :=
  if strContains ql "aws" && strContains ql "admin" then
    match runQ conn aws_admin_count with
    | .error m => { b with error := some m }
    | .ok c => _aqb_notion ql conn { b with aws_admins := some c }
  else _aqb_notion ql conn b

/-- _analyze_query_breakdown: issue the keyword-triggered scalar count
queries in source order; the first exception stops the sequence and is
recorded under `error`, keeping the keys already written. -/
def _analyze_query_breakdown (ql : String) (conn : Conn) : Breakdown :=
  if strContains ql "lenovo" then
    match runQ conn lenovo_user_count with
    | .error m => { error := some m }
    | .ok c => _aqb_aws ql conn { lenovo_users := some c }
  else _aqb_aws ql conn {}

/-- Plural suffix helper for the f-string fragments
`s if n != 1 else empty`. -/
def pluralS (n : Nat) : String := if n != 1 then "s" else ""

/-- _generate_breakdown_insights: bullet lines for each present scalar;
an analysis error short-circuits to a single warning line. -/
def _generate_breakdown_insights (bd : Breakdown) : List String :=
  match bd.error with
  | some e => ["⚠️ Analysis error: " ++ e]
  | none =>
    ["\n📊 Breakdown Analysis:"]
    ++ (match bd.lenovo_users with
        | some n => ["  • Lenovo laptop users: " ++ toString n]
        | none => [])
    ++ (match bd.aws_admins with
        | some n => ["  • AWS Admin users: " ++ toString n]
        | none => [])
    ++ (match bd.notion_users with
        | some n => ["  • Notion license users: " ++ toString n]
        | none => [])
    ++ (match bd.lenovo_aws with
        | some n =>
          ["\n🔍 Cross-Reference: Lenovo + AWS Admin: " ++ toString n ++ " users"]
          ++ (if n == 0 && 0 < bd.lenovo_users.getD 0 then
                ["💡 Key Finding: No Lenovo users have AWS Administrator access"]
              else [])
        | none => [])

/-- _generate_alternative_suggestions (quotes of the suggested queries
omitted from the literals). -/
def _generate_alternative_suggestions (ql : String) (bd : Breakdown) : List String :=
  (if strContains ql "lenovo" && bd.lenovo_aws.getD 0 == 0 then
    ["Try: Apple laptop users with AWS admin access"]
  else [])
  ++ (if strContains ql "aws" && strContains ql "admin" then
    ["Try: What devices do AWS admins use?"]
  else [])

/-! ## Rows returned by oracle SQL, and per-row dict access -/

/-- A raw sqlite row converted by `dict(row)`: an association list from
column name to value. -/
abbrev Row := List (String × String)

/-- Projection of a provision row to the seven columns selected by the
keyword fallback query. -/
structure ProvisionProj where
  User_ID : String
  First_Name : String
  Last_Name : String
  Email : String
  Role : String
  Status : String
  Work_Location_Code : String
deriving DecidableEq

def projProvision (p : ProvisionRow) : ProvisionProj :=
  ⟨p.User_ID, p.First_Name, p.Last_Name, p.Email, p.Role, p.Status, p.Work_Location_Code⟩

/-- An element of a result list: either a plain row dict from the oracle
path, or one of the tagged fallback records
(`type: device` / `type: user` wrapper dicts). -/
inductive ResultItem where
  | plain (row : Row)
  | device (d : DeviceRow)
  | user (u : ProvisionProj)
deriving DecidableEq

/-- Python `result.get(key, dflt)` over a result element.  The fallback
wrapper dicts only carry the keys type/similarity/data, so every column
lookup on them returns the default. -/
def itemGet (it : ResultItem) (key dflt : String) : String :=
  match it with
  | .plain r => (List.lookup key r).getD dflt
  | .device _ => dflt
  | .user _ => dflt

/-! ## Result-set insight helpers -/

/-- Insertion-ordered occurrence counting (a Python dict used as a
counter). -/
def bumpCount (l : List (String × Nat)) (k : String) : List (String × Nat) :=
  match l with
  | [] => [(k, 1)]
  | (a, n) :: rest => if a == k then (a, n + 1) :: rest else (a, n) :: bumpCount rest k

/-- Python `max(d, key=d.get)` over an insertion-ordered counter: the first
key attaining the maximal count. -/
def maxByValue : List (String × Nat) → Option (String × Nat)
  | [] => none
  | (a, n) :: rest =>
    match maxByValue rest with
    | none => some (a, n)
    | some (b, m) => if m ≤ n then some (a, n) else some (b, m)

/-- _analyze_device_results: majority manufacturer over the result rows. -/
def _analyze_device_results (results : List ResultItem) : List String :=
  if results.isEmpty then []
  else
    let manufacturers := results.foldl (fun acc r => bumpCount acc (itemGet r "Manufacturer" "Unknown")) []
    match maxByValue manufacturers with
    | some (top, n) =>
      ["🖥️ Hardware: " ++ top ++ " is the primary manufacturer (" ++ toString n ++ " devices)"]
    | none => []

/-- _analyze_license_results. -/
def _analyze_license_results (results : List ResultItem) : List String :=
  if results.isEmpty then []
  else ["📝 License Status: All results show active application licenses"]

/-- _determine_analysis_type. -/
def _determine_analysis_type (ql : String) : String :=
  if strContains ql "aws" && strContains ql "admin" then "security_analysis"
  else if strContains ql "japan" then "geographic_analysis"
  else if strContains ql "laptop" || strContains ql "device" then "hardware_analysis"
  else if strContains ql "license" || strContains ql "notion" then "software_analysis"
  else "general_query"

/-- _generate_summary (quotes around the question omitted from the
literals). -/
def _generate_summary (question : String) (count : Nat) : String :=
  if count == 0 then
    "Query " ++ question ++ " returned no results. Breakdown analysis provided to understand why criteria do not intersect."
  else
    "Query " ++ question ++ " successfully found " ++ toString count ++ " matching records with detailed insights provided."

/-- _is_complex_multi_criteria_query: at least two of the four fixed
criteria families appear in the question. -/
def _is_complex_multi_criteria_query (ql : String) : Bool :=
  let c1 := if strContains ql "lenovo" || strContains ql "apple"
      || strContains ql "laptop" || strContains ql "device" then 1 else 0
  let c2 := if strContains ql "aws" || strContains ql "admin"
      || strContains ql "administrator" then 1 else 0
  let c3 := if strContains ql "notion" || strContains ql "github"
      || strContains ql "slack" || strContains ql "license" then 1 else 0
  let c4 := if strContains ql "japan" || strContains ql "india"
      || strContains ql "bangalore" then 1 else 0
  if 2 ≤ c1 + c2 + c3 + c4 then true else false

/-- _generate_key_findings: findings derived from the breakdown scalars and
the result rows (pure: it issues no queries of its own). -/
def _generate_key_findings (ql : String) (results : List ResultItem) (bd : Breakdown) :
    List String :=
  (if strContains ql "aws" && strContains ql "admin" then
    let awsAdminCount := bd.aws_admins.getD 0
    if 0 < awsAdminCount then
      ["🔐 " ++ toString awsAdminCount ++ " users have AWS Administrator access in the system"]
      ++ (if !results.isEmpty then
            let roles := results.foldl (fun acc r => bumpCount acc (itemGet r "Job_Title" "Unknown")) []
            match maxByValue roles with
            | some (top, n) =>
              ["👔 Most AWS admins are " ++ top ++ ": " ++ toString n ++ " users"]
            | none => []
          else [])
    else []
  else [])
  ++ (if strContains ql "lenovo" || strContains ql "laptop" then
    let lenovoCount := bd.lenovo_users.getD 0
    if 0 < lenovoCount then
      ["💻 " ++ toString lenovoCount ++ " employees are assigned Lenovo devices"]
      ++ (if strContains ql "aws" && bd.lenovo_aws.getD 0 == 0 then
            ["⚠️ No overlap between Lenovo users and AWS administrators"]
          else [])
    else []
  else [])
  ++ (if strContains ql "japan" then
    let japaneseIndicators :=
      (results.filter (fun r =>
        let firstName := (itemGet r "First_Name" "").lower
        let email := (itemGet r "Email" "").lower
        japanNameList.any (fun nm => strContains firstName nm) || strContains email ".jp")).length
    if 0 < japaneseIndicators then
      ["🗾 " ++ toString japaneseIndicators ++ " users identified as likely Japanese employees"]
    else []
  else [])
  ++ (if strContains ql "notion" then
    let notionCount := bd.notion_users.getD 0
    if 0 < notionCount then
      ["📝 " ++ toString notionCount ++ " employees have active Notion licenses"]
    else []
  else [])
  ++ (if results.length == 0 && _is_complex_multi_criteria_query ql then
    ["🔍 Complex criteria analysis shows no users match all requirements simultaneously",
     "💡 Consider relaxing one or more criteria to find related users"]
  else [])

/-! ## Detailed breakdown (_generate_detailed_breakdown_analysis) -/

/-- One component or intersection entry of the detailed breakdown. -/
structure Component where
  name : String
  count : Nat
  status : String
  icon : Option String := none
  details : Option String := none
deriving DecidableEq

structure DetailedBreakdown where
  title : String
  components : List Component
  intersections : List Component
  summary : String
deriving DecidableEq

/-- An error entry appended when a component query raises. -/
def errComp (name msg : String) : Component :=
  { name := name, count := 0, status := "error", details := some msg }

/-- COUNT(*) FROM devices WHERE Device_Status = In-use. -/
def total_device_count (db : Database) : Nat :=
  (db.devices.filter (fun d => d.Device_Status == "In-use")).length

/-- Apple user count as issued by _analyze_device_components (this variant
filters on a present assigned email, unlike the cross-reference one). -/
def apple_assigned_user_count (db : Database) : Nat :=
  (((db.devices.filter (fun d =>
      d.Manufacturer.upper == "APPLE" && d.Device_Status == "In-use"
        && d.Assigned_User_s_Email != "")).map
    (fun d => d.Assigned_User_s_Email)).eraseDups).length

/-- _analyze_device_components. -/
def _analyze_device_components (ql : String) (conn : Conn) : List Component :=
  match conn with
  | .failing m => [errComp "Device Analysis Error" m]
  | .ok db =>
    let total := total_device_count db
    (if 0 < total then
      [{ name := "Active Devices", count := total, status := "success", icon := some "💻" }]
    else [])
    ++ (if strContains ql "lenovo" then
      let n := lenovo_user_count db
      [{ name := "Lenovo laptop users", count := n
         status := if 0 < n then "success" else "warning", icon := some "💻" }]
    else [])
    ++ (if strContains ql "apple" || strContains ql "macbook" then
      let n := apple_assigned_user_count db
      [{ name := "Apple laptop users", count := n
         status := if 0 < n then "success" else "warning", icon := some "🍎" }]
    else [])

/-- COUNT(DISTINCT Email) FROM provisions WHERE Email is present. -/
def total_user_count (db : Database) : Nat :=
  (((db.provisions.filter (fun p => p.Email != "")).map (fun p => p.Email)).eraseDups).length

/-- COUNT(DISTINCT Assigned_User_s_Email) FROM devices WHERE In-use and the
email is present. -/
def active_employee_count (db : Database) : Nat :=
  (((db.devices.filter (fun d =>
      d.Device_Status == "In-use" && d.Assigned_User_s_Email != "")).map
    (fun d => d.Assigned_User_s_Email)).eraseDups).length

/-- _analyze_user_components. -/
def _analyze_user_components (conn : Conn) : List Component :=
  match conn with
  | .failing m => [errComp "User Analysis Error" m]
  | .ok db =>
    (if 0 < total_user_count db then
      [{ name := "Total Users", count := total_user_count db, status := "success", icon := some "👥" }]
    else [])
    ++ (if 0 < active_employee_count db then
      [{ name := "Active Employees", count := active_employee_count db, status := "success", icon := some "👤" }]
    else [])

/-- COUNT(DISTINCT Email) FROM app_portfolio WHERE UPPER(App) LIKE %GITHUB%
AND Account_Status = Activated. -/
def github_user_count (db : Database) : Nat :=
  (((db.app_portfolio.filter (fun ap =>
      strContains ap.App.upper "GITHUB" && ap.Account_Status == "Activated")).map
    (fun ap => ap.Email)).eraseDups).length

/-- _analyze_application_components. -/
def _analyze_application_components (ql : String) (conn : Conn) : List Component :=
  match conn with
  | .failing m =>
    if (strContains ql "aws" && strContains ql "admin") || strContains ql "notion"
        || strContains ql "github" then
      [errComp "App Analysis Error" m]
    else []
  | .ok db =>
    (if strContains ql "aws" && strContains ql "admin" then
      let n := aws_admin_count db
      [{ name := "AWS Admin users", count := n
         status := if 0 < n then "success" else "warning", icon := some "☁️" }]
    else [])
    ++ (if strContains ql "notion" then
      let n := notion_user_count db
      [{ name := "Notion license users", count := n
         status := if 0 < n then "success" else "warning", icon := some "📝" }]
    else [])
    ++ (if strContains ql "github" then
      let n := github_user_count db
      [{ name := "GitHub users", count := n
         status := if 0 < n then "success" else "warning", icon := some "🐙" }]
    else [])

/-- COUNT(DISTINCT Assigned_User_s_Email) FROM devices in a region or city
matching the two geographic patterns, In-use only. -/
def geo_device_count (pat1 pat2 : String) (db : Database) : Nat :=
  (((db.devices.filter (fun d =>
      (strContains d.Region.upper pat1 || strContains d.City.upper pat2)
        && d.Device_Status == "In-use")).map
    (fun d => d.Assigned_User_s_Email)).eraseDups).length

/-- COUNT(DISTINCT Email) FROM provisions with an allow-listed first name or
a .jp email suffix. -/
def japanese_name_count (db : Database) : Nat :=
  (((db.provisions.filter (fun p =>
      japanNameList.contains p.First_Name.lower || p.Email.endswith ".jp")).map
    (fun p => p.Email)).eraseDups).length

/-- _analyze_geographic_components. -/
def _analyze_geographic_components (ql : String) (conn : Conn) : List Component :=
  match conn with
  | .failing m =>
    if strContains ql "japan" || strContains ql "tokyo" || strContains ql "india"
        || strContains ql "bangalore" then
      [errComp "Geographic Analysis Error" m]
    else []
  | .ok db =>
    (if strContains ql "japan" || strContains ql "tokyo" then
      let totalJapan := Nat.max (geo_device_count "JAPAN" "TOKYO" db) (japanese_name_count db)
      [{ name := "Japan-based users", count := totalJapan
         status := if 0 < totalJapan then "success" else "warning", icon := some "🗾" }]
    else [])
    ++ (if strContains ql "india" || strContains ql "bangalore" then
      let n := geo_device_count "INDIA" "BANGALORE" db
      [{ name := "India-based users", count := n
         status := if 0 < n then "success" else "warning", icon := some "🇮🇳" }]
    else [])

/-- Stable insertion sort, descending by count (the SQL ORDER BY count DESC
leaves tie order unspecified). -/
def insertByCountDesc (x : String × Nat) : List (String × Nat) → List (String × Nat)
  | [] => [x]
  | y :: rest => if y.2 ≤ x.2 then x :: y :: rest else y :: insertByCountDesc x rest

/-- GROUP BY Department_s with counts, ordered by count descending,
LIMIT 3. -/
def department_counts (db : Database) : List (String × Nat) :=
  let vals := (db.app_portfolio.filter (fun ap => ap.Department_s != "")).map
    (fun ap => ap.Department_s)
  ((vals.eraseDups.map (fun d => (d, (vals.filter (fun v => v == d)).length))).foldr
    insertByCountDesc []).take 3

/-- _analyze_role_components. -/
def _analyze_role_components (conn : Conn) : List Component :=
  match conn with
  | .failing m => [errComp "Role Analysis Error" m]
  | .ok db =>
    (department_counts db).map (fun dc =>
      { name := dc.1 ++ " department", count := dc.2, status := "success", icon := some "🏢" })

/-- COUNT(DISTINCT ap.Email) over app_portfolio JOIN provisions: AWS
administrators (no Account_Status filter here) holding a Notion license. -/
def aws_notion_count (db : Database) : Nat :=
  ((((db.app_portfolio.filter (fun ap =>
      strContains ap.App.upper "AWS" && strContains ap.Role_s.upper "ADMINISTRATOR")).flatMap
    (fun ap =>
      (db.provisions.filter (fun p =>
        ap.Email == p.Email
          && (p.Notion_Josys_inc == "Activated" || p.Notion_Josys_public == "Activated"))).map
        (fun _ => ap.Email)))).eraseDups).length

/-- Second intersection step of _analyze_component_intersections. -/
def _aci_notion (trigger : Bool) (conn : Conn) : List Component :=
  if trigger then
    match runQ conn aws_notion_count with
    | .error m => [errComp "Intersection Analysis Error" m]
    | .ok n =>
      [{ name := "AWS Admins with Notion", count := n
         status := if 0 < n then "success" else "warning", icon := some "🔗" }]
  else []

/-- _analyze_component_intersections: keyed on the names of the components
found so far; the first exception appends a single error entry and stops. -/
def _analyze_component_intersections (components : List Component) (conn : Conn) :
    List Component :=
  let hasLenovo := components.any (fun c => strContains c.name.lower "lenovo")
  let hasAws := components.any (fun c => strContains c.name.lower "aws")
  let hasNotion := components.any (fun c => strContains c.name.lower "notion")
  if hasLenovo && hasAws then
    match runQ conn lenovo_aws_count with
    | .error m => [errComp "Intersection Analysis Error" m]
    | .ok n =>
      [{ name := "Lenovo users with AWS Admin", count := n
         status := if 0 < n then "success" else "warning", icon := some "🔗" }]
      ++ _aci_notion (hasAws && hasNotion) conn
  else _aci_notion (hasAws && hasNotion) conn

/-- _generate_detailed_breakdown_analysis: run the keyword-triggered
component analyzers, then the intersections when more than one component
was found, then a summary line. -/
def _generate_detailed_breakdown_analysis (ql : String) (conn : Conn) :
    DetailedBreakdown :=
  let components :=
    (if strContains ql "laptop" || strContains ql "device" || strContains ql "computer"
        || strContains ql "phone" || strContains ql "lenovo" || strContains ql "apple"
        || strContains ql "macbook" then
      _analyze_device_components ql conn
    else [])
    ++ (if strContains ql "user" || strContains ql "employee" || strContains ql "person"
        || strContains ql "people" || strContains ql "staff" then
      _analyze_user_components conn
    else [])
    ++ (if strContains ql "aws" || strContains ql "admin" || strContains ql "notion"
        || strContains ql "github" || strContains ql "slack" || strContains ql "app"
        || strContains ql "access" || strContains ql "license" then
      _analyze_application_components ql conn
    else [])
    ++ (if strContains ql "japan" || strContains ql "india" || strContains ql "bangalore"
        || strContains ql "tokyo" || strContains ql "location" then
      _analyze_geographic_components ql conn
    else [])
    ++ (if strContains ql "role" || strContains ql "department" || strContains ql "title"
        || strContains ql "position" then
      _analyze_role_components conn
    else [])
  { title := "Individual Components"
    components := components
    intersections :=
      if 1 < components.length then _analyze_component_intersections components conn
      else []
    summary :=
      if 0 < components.length then
        "Analyzed " ++ toString components.length ++ " component"
          ++ pluralS components.length ++ " across the organization"
      else "" }

/-! ## The result dictionary and insight enrichment -/

/-- The result dict flowing through the pipeline.  Optional fields model
keys that only some code paths set; `execution_time` is the modelled
wall-clock time (always 0 here). -/
structure NLResult where
  question : Option String := none
  query : Option String := none
  sql : Option String := none
  results : Option (List ResultItem) := none
  count : Option Nat := none
  execution_time : Nat := 0
  method : Option String := none
  status : String
  cached : Option Bool := none
  error : Option String := none
  fallback_reason : Option String := none
  attempted_sql : Option String := none
  insights : Option (List String) := none
  breakdown_data : Option Breakdown := none
  detailed_breakdown : Option DetailedBreakdown := none
  suggestions : Option (List String) := none
  key_findings : Option (List String) := none
  cross_references : Option (List CrossRef) := none
  analysis_type : Option String := none
  comprehensive_summary : Option String := none
deriving DecidableEq

/-- _generate_comprehensive_insights: copy the base result and attach the
insight fields; never removes or rewrites the base fields. -/
def _generate_comprehensive_insights (question : String) (result : NLResult)
    (conn : Conn) : NLResult :=
  let ql := question.lower
  let results := result.results.getD []
  let count := result.count.getD 0
  let complexBd :=
    if count == 0 && _is_complex_multi_criteria_query ql then
      some (_analyze_query_breakdown ql conn)
    else none
  let breakdownData := complexBd.getD {}
  let insights :=
    (if count == 0 then
      ["❌ No results found matching your criteria."]
      ++ (match complexBd with
          | some bd => _generate_breakdown_insights bd
          | none => [])
    else
      ["✅ Found " ++ toString count ++ " result" ++ pluralS count ++ " matching your criteria."]
      ++ (if strContains ql "aws" && strContains ql "admin" then
            ["🔐 Security Note: " ++ toString count ++ " user" ++ pluralS count
              ++ " with AWS administrative privileges found."]
          else [])
      ++ (if strContains ql "japan" || strContains ql "tomoyo" || strContains ql "mari"
            || strContains ql "kohei" then
            ["🗾 Geographic Analysis: Identified " ++ toString count ++ " Japanese employee"
              ++ pluralS count ++ " in the system."]
          else [])
      ++ (if strContains ql "laptop" || strContains ql "device" then
            _analyze_device_results results
          else [])
      ++ (if strContains ql "notion" || strContains ql "license" then
            _analyze_license_results results
          else []))
    ++ (if 1 < result.execution_time then
          ["⏱️ Query executed in " ++ toString result.execution_time
            ++ "s - complex cross-table analysis performed."]
        else if 0 < result.execution_time then
          ["⚡ Fast execution: " ++ toString result.execution_time ++ "s"]
        else [])
  let suggestions :=
    match complexBd with
    | some bd => _generate_alternative_suggestions ql bd
    | none => []
  { result with
    insights := some insights
    breakdown_data := some breakdownData
    detailed_breakdown := some (_generate_detailed_breakdown_analysis ql conn)
    suggestions := some suggestions
    key_findings := some (_generate_key_findings ql results breakdownData)
    cross_references := some (_generate_cross_references ql conn)
    analysis_type := some (_determine_analysis_type ql)
    comprehensive_summary := some (_generate_summary question count) }

/-! ## Keyword fallback search (_keyword_fallback_search) -/

/-- The device-table predicate of the fallback query: the five searched
columns, each UPPER LIKE UPPER(%query%). -/
def deviceKeywordMatch (query : String) (d : DeviceRow) : Bool :=
  upperLike d.Asset_Number query || upperLike d.Device_Type query
    || upperLike d.Manufacturer query || upperLike d.Assigned_User_s_Email query
    || upperLike d.City query

/-- The provision-table predicate of the fallback query: the five searched
columns. -/
def provisionKeywordMatch (query : String) (p : ProvisionRow) : Bool :=
  upperLike p.User_ID query || upperLike p.First_Name query
    || upperLike p.Last_Name query || upperLike p.Email query
    || upperLike p.Role query

/-- _keyword_fallback_search: search each table independently with a
per-table SQL LIMIT of limit / 2 (integer division), tag the records with
their source table, concatenate devices-then-provisions, truncate to
limit.  On a raised query the exception is caught and the records gathered
so far are kept (none, under the uniform failure model); the status is
success in every case. -/
def _keyword_fallback_search (conn : Conn) (query : String) (limit : Nat) : NLResult :=
  let results : List ResultItem :=
    match conn with
    | .failing _ => []
    | .ok db =>
      ((db.devices.filter (deviceKeywordMatch query)).take (limit / 2)).map ResultItem.device
      ++ ((db.provisions.filter (provisionKeywordMatch query)).take (limit / 2)).map
        (fun p => ResultItem.user (projProvision p))
  { query := some query
    method := some "keyword_fallback"
    results := some (results.take limit)
    count := some (results.take limit).length
    status := "success" }

/-! ## Oracle path (natural_language_to_sql) and combined search -/

/-- Outcome of the external OpenAI call: the raw generated text, or an
exception from the API client. -/
inductive OracleOutcome where
  | ok (text : String)
  | apiError (msg : String)

/-- Post-processing of the raw oracle output: strip, remove code fences,
drop a leading sql language tag. -/
def cleanup_sql (raw : String) : String :=
  let s := raw.strip
  let s := (py_replace (py_replace s "```sql" "") "```" "").strip
  if s.startswith "sql" then (s.drop 3).strip else s

/-- The in-memory query cache, newest entry first (an assignment to an
existing key shadows the older pair for lookup). -/
abbrev Cache := List (String × NLResult)

/-- The cache key: a fixed prefix plus the case-normalized question. -/
def cache_key (question : String) : String := "nl2sql:" ++ question.lower

/-- natural_language_to_sql: serve from the cache when the normalized
question is present (marking the copy cached = true); otherwise call the
oracle, clean its output, execute it, and on success enrich, cache and
return the result.  API and SQL errors return error-status dicts and write
nothing to the cache.  `execSql` is the sqlite execution of the untrusted
generated SQL text (uninterpreted here); `conn` is the same connection as
seen by the synthesis sub-queries. -/
def natural_language_to_sql (oracle : OracleOutcome)
    (execSql : String → Except String (List Row)) (conn : Conn)
    (cache : Cache) (question : String) : NLResult × Cache :=
  match List.lookup (cache_key question) cache with
  | some r => ({ r with cached := some true }, cache)
  | none =>
    match oracle with
    | .apiError m =>
      ({ question := some question
         error := some ("OpenAI API error: " ++ m)
         status := "api_error" }, cache)
    | .ok raw =>
      let sql_query := cleanup_sql raw
      match execSql sql_query with
      | .error e =>
        ({ question := some question
           sql := some sql_query
           error := some ("SQL execution error: " ++ e)
           status := "sql_error" }, cache)
      | .ok rows =>
        let results := rows.map ResultItem.plain
        let result : NLResult :=
          { question := some question
            sql := some sql_query
            results := some results
            count := some results.length
            method := some "openai_nl2sql"
            status := "success"
            cached := some false }
        let enhanced := _generate_comprehensive_insights question result conn
        (enhanced, (cache_key question, enhanced) :: cache)

/-- combined_nlp_search: use the oracle path when it succeeded with at
least one row (retagging the method); otherwise fall back to the keyword
search, annotated with the failure reason and the attempted SQL (or the
N/A placeholder when none was produced). -/
def combined_nlp_search (oracle : OracleOutcome)
    (execSql : String → Except String (List Row)) (conn : Conn)
    (cache : Cache) (question : String) : NLResult × Cache :=
  let nl2sqlPair := natural_language_to_sql oracle execSql conn cache question
  let nl2sql_result := nl2sqlPair.1
  if nl2sql_result.status == "success" && 0 < nl2sql_result.count.getD 0 then
    ({ nl2sql_result with method := some "combined_nl2sql_primary" }, nl2sqlPair.2)
  else
    let fallback_result := _keyword_fallback_search conn question 10
    ({ fallback_result with
        method := some "combined_keyword_fallback"
        fallback_reason := some ("NL2SQL failed: " ++ (nl2sql_result.error.getD "No results"))
        attempted_sql := some (nl2sql_result.sql.getD "N/A") }, nl2sqlPair.2)

/-! ## Auxiliary predicates used by the verification -/

/-- No two consecutive underscores occur in the list (the post-condition of
the underscore-collapsing substitution). -/
def noDbl : List Char → Bool
  | a :: b :: r => !(a == '_' && b == '_') && noDbl (b :: r)
  | _ => true

/-- The first character, if any, does not satisfy `p`. -/
def headNot (p : Char → Bool) : List Char → Bool
  | [] => true
  | a :: _ => !(p a)

/-- The last character, if any, does not satisfy `p`. -/
def lastNot (p : Char → Bool) (l : List Char) : Bool :=
  match l.getLast? with
  | none => true
  | some a => !(p a)

/-- Characteristic predicate of the outputs of `clean_column_name_chars`:
only kept characters, no double underscore, no boundary underscore, no
leading digit, nonempty.  Every such list is a fixed point of the
sanitizer. -/
def cleanShape (l : List Char) : Bool :=
  l.all keepChar && noDbl l && headNot (fun c => c == '_') l
    && headNot Char.isDigit l && lastNot (fun c => c == '_') l && !l.isEmpty

/-- A result produced by the oracle path and eligible for the cache:
status success and the oracle method tag. -/
def oracleCachedResult (v : NLResult) : Prop :=
  v.status = "success" ∧ v.method = some "openai_nl2sql"

/-- Cache invariant: every stored value is an oracle-path success. -/
def CacheGood (cache : Cache) : Prop := ∀ kv ∈ cache, oracleCachedResult kv.2

/-- Count consistency of a result dict: when a results list is present, the
count field equals its length. -/
def CountOK (r : NLResult) : Prop := ∀ rs, r.results = some rs → r.count = some rs.length

/-! ## Concrete sample data used by witnesses and counterexamples -/

def emptyDb : Database := { devices := [], provisions := [], app_portfolio := [] }

/-- A store with one AWS administrator who holds no Notion license. -/
def awsNoNotionDb : Database :=
  { devices := []
    provisions := [{ User_ID := "u1", First_Name := "Ann", Last_Name := "Bee"
                     Email := "ann@x.com", Role := "Engineer", Status := "Active"
                     Work_Location_Code := "BLR"
                     Notion_Josys_inc := "", Notion_Josys_public := "" }]
    app_portfolio := [{ App := "AWS", Identifier := "main", ID := "ann"
                        Role_s := "AdministratorAccess", Account_Status := "Activated"
                        First_Name := "Ann", Last_Name := "Bee", Email := "ann@x.com"
                        Department_s := "Eng" }] }

/-- A store with one in-use Apple laptop assigned to a user and no
application-portfolio rows at all. -/
def appleOnlyDb : Database :=
  { devices := [{ Asset_Number := "A1", Device_Type := "LAPTOP", Manufacturer := "Apple"
                  Model_Name := "MacBook Pro", Device_Status := "In-use"
                  Assigned_User_s_Email := "cid@x.com", City := "Tokyo", Region := "Japan" }]
    provisions := [{ User_ID := "u2", First_Name := "Cid", Last_Name := "Dee"
                     Email := "cid@x.com", Role := "Designer", Status := "Active"
                     Work_Location_Code := "TYO"
                     Notion_Josys_inc := "", Notion_Josys_public := "" }]
    app_portfolio := [] }

/-- A base result dict as the oracle path builds it for a one-row answer. -/
def sampleOracleRow : Row := [("Manufacturer", "Apple"), ("Email", "cid@x.com")]

/-! ## Shared helper lemmas -/

/-- Insight enrichment only attaches analysis fields: every base field of
the result dict is preserved verbatim. -/
theorem gci_preserves_base (q : String) (r : NLResult) (conn : Conn) :
    (_generate_comprehensive_insights q r conn).status = r.status
    ∧ (_generate_comprehensive_insights q r conn).method = r.method
    ∧ (_generate_comprehensive_insights q r conn).results = r.results
    ∧ (_generate_comprehensive_insights q r conn).count = r.count
    ∧ (_generate_comprehensive_insights q r conn).sql = r.sql
    ∧ (_generate_comprehensive_insights q r conn).question = r.question
    ∧ (_generate_comprehensive_insights q r conn).cached = r.cached :=
  ⟨rfl, rfl, rfl, rfl, rfl, rfl, rfl⟩

/-- A successful lookup in the cache comes from a stored pair. -/
theorem lookup_mem {k : String} {v : NLResult} :
    ∀ {l : Cache}, List.lookup k l = some v → (k, v) ∈ l
  | [], h => by simp [List.lookup] at h
  | (a, b) :: t, h => by
    rw [List.lookup] at h
    by_cases hk : k == a
    · rw [hk] at h
      simp only [cond_true, Option.some.injEq] at h
      have hka : k = a := by simpa using hk
      subst hka
      exact h ▸ List.mem_cons_self _ _
    · rw [Bool.not_eq_true] at hk
      rw [hk] at h
      simp only [cond_false] at h
      exact List.mem_cons_of_mem _ (lookup_mem h)

/-! ## C8 -/

/-- C8: the sanitizer maps the header Asset # to Asset (specials to
underscores, runs collapsed, trailing underscore trimmed) and the header
2nd Email to col_2nd_Email (digit-leading result prefixed). -/
theorem C8_clean_column_name_scenarios :
    clean_column_name "Asset #" = "Asset"
    ∧ clean_column_name "2nd Email" = "col_2nd_Email" :=
  ⟨by decide, by decide⟩

/-! ## C6 -/

/-- C6: the keyword fallback always reports status success (also on a
raising connection), tags every record with its source table, searches the
two tables independently through their fixed column predicates, puts all
device records before all provision records, and truncates to at most
limit records. -/
theorem C6_keyword_fallback_contract (db : Database) (m query : String) (limit : Nat) :
    (_keyword_fallback_search (Conn.ok db) query limit).status = "success"
    ∧ (_keyword_fallback_search (Conn.failing m) query limit).status = "success"
    ∧ (_keyword_fallback_search (Conn.failing m) query limit).results = some []
    ∧ (_keyword_fallback_search (Conn.ok db) query limit).method = some "keyword_fallback"
    ∧ (∃ ds us,
        (_keyword_fallback_search (Conn.ok db) query limit).results = some (ds ++ us)
        ∧ (∀ it ∈ ds, ∃ d, it = ResultItem.device d ∧ d ∈ db.devices
            ∧ deviceKeywordMatch query d = true)
        ∧ (∀ it ∈ us, ∃ p, it = ResultItem.user (projProvision p) ∧ p ∈ db.provisions
            ∧ provisionKeywordMatch query p = true))
    ∧ (∀ rs, (_keyword_fallback_search (Conn.ok db) query limit).results = some rs →
        rs.length ≤ limit) := by
  refine ⟨rfl, rfl, by simp [_keyword_fallback_search], rfl, ?_, ?_⟩
  · set devs := ((db.devices.filter (deviceKeywordMatch query)).take (limit / 2)).map
      ResultItem.device with hdevs
    set provs := ((db.provisions.filter (provisionKeywordMatch query)).take (limit / 2)).map
      (fun p => ResultItem.user (projProvision p)) with hprovs
    refine ⟨devs.take limit, provs.take (limit - devs.length), ?_, ?_, ?_⟩
    · show some ((devs ++ provs).take limit) = _
      rw [List.take_append_eq_append_take]
    · intro it hit
      have hit' : it ∈ devs := List.take_subset _ _ hit
      rw [hdevs] at hit'
      obtain ⟨d, hd, rfl⟩ := List.mem_map.mp hit'
      have hd' := List.take_subset _ _ hd
      exact ⟨d, rfl, (List.mem_filter.mp hd').1, (List.mem_filter.mp hd').2⟩
    · intro it hit
      have hit' : it ∈ provs := List.take_subset _ _ hit
      rw [hprovs] at hit'
      obtain ⟨p, hp, rfl⟩ := List.mem_map.mp hit'
      have hp' := List.take_subset _ _ hp
      exact ⟨p, rfl, (List.mem_filter.mp hp').1, (List.mem_filter.mp hp').2⟩
  · intro rs hrs
    have : rs = (((db.devices.filter (deviceKeywordMatch query)).take (limit / 2)).map
        ResultItem.device
      ++ ((db.provisions.filter (provisionKeywordMatch query)).take (limit / 2)).map
        (fun p => ResultItem.user (projProvision p))).take limit := by
      have := hrs.symm
      simpa [_keyword_fallback_search] using this
    rw [this]
    exact List.length_take_le _ _

/-- C6 witness: the contract evaluated on the concrete Apple store. -/
theorem C6_keyword_fallback_contract_witness :
    (_keyword_fallback_search (Conn.ok appleOnlyDb) "apple" 10).status = "success"
    ∧ (_keyword_fallback_search (Conn.failing "boom") "apple" 10).status = "success" :=
  ⟨(C6_keyword_fallback_contract appleOnlyDb "boom" "apple" 10).1,
   (C6_keyword_fallback_contract appleOnlyDb "boom" "apple" 10).2.1⟩

/-! ## C10 -/

/-- C10: each table contributes at most limit / 2 records (integer
division), so the merged fallback result holds at most 2 * (limit / 2)
records; for an odd limit the stated cap is therefore never reached, and
with limit = 1 the search returns no records at all. -/
theorem C10_per_table_half_cap (conn : Conn) (query : String) (limit : Nat)
    (h : Odd limit) :
    ((_keyword_fallback_search conn query limit).results.getD []).length ≤ 2 * (limit / 2)
    ∧ ((_keyword_fallback_search conn query limit).results.getD []).length < limit
    ∧ (_keyword_fallback_search conn query 1).results = some [] := by
  have hmod : limit % 2 = 1 := Nat.odd_iff.mp h
  have hdm : 2 * (limit / 2) + 1 = limit := by
    have := Nat.div_add_mod limit 2
    omega
  have hbound : ((_keyword_fallback_search conn query limit).results.getD []).length
      ≤ 2 * (limit / 2) := by
    cases conn with
    | failing m => simp [_keyword_fallback_search]
    | ok db =>
      show ((((db.devices.filter (deviceKeywordMatch query)).take (limit / 2)).map
          ResultItem.device
        ++ ((db.provisions.filter (provisionKeywordMatch query)).take (limit / 2)).map
          (fun p => ResultItem.user (projProvision p))).take limit).length ≤ 2 * (limit / 2)
      calc ((((db.devices.filter (deviceKeywordMatch query)).take (limit / 2)).map
              ResultItem.device
            ++ ((db.provisions.filter (provisionKeywordMatch query)).take (limit / 2)).map
              (fun p => ResultItem.user (projProvision p))).take limit).length
          ≤ (((db.devices.filter (deviceKeywordMatch query)).take (limit / 2)).map
              ResultItem.device
            ++ ((db.provisions.filter (provisionKeywordMatch query)).take (limit / 2)).map
              (fun p => ResultItem.user (projProvision p))).length :=
            (List.length_take _ _).le.trans (Nat.min_le_right _ _)
        _ ≤ limit / 2 + limit / 2 := by
            rw [List.length_append, List.length_map, List.length_map]
            exact Nat.add_le_add (List.length_take_le _ _) (List.length_take_le _ _)
        _ = 2 * (limit / 2) := (Nat.two_mul _).symm
  refine ⟨hbound, lt_of_le_of_lt hbound (by omega), ?_⟩
  cases conn with
  | failing m => rfl
  | ok db => rfl

/-- C10 witness: the cap evaluated at the odd limit 3 on the Apple
store. -/
theorem C10_per_table_half_cap_witness :
    ((_keyword_fallback_search (Conn.ok appleOnlyDb) "o" 3).results.getD []).length ≤ 2 * (3 / 2)
    ∧ ((_keyword_fallback_search (Conn.ok appleOnlyDb) "o" 3).results.getD []).length < 3
    ∧ (_keyword_fallback_search (Conn.ok appleOnlyDb) "o" 1).results = some [] :=
  C10_per_table_half_cap (Conn.ok appleOnlyDb) "o" 3 (by decide)

/-! ## C1 -/

/-- C1 counterexample: on a question whose oracle call raises an API
error, the combined search does fall back, but its method field is the
string combined_keyword_fallback, not keyword_fallback as the claim
states. -/
theorem C1_counterexample :
    (natural_language_to_sql (OracleOutcome.apiError "connection refused")
      (fun _ => Except.error "x") (Conn.ok emptyDb) [] "list gadgets").1.status = "api_error"
    ∧ (combined_nlp_search (OracleOutcome.apiError "connection refused")
        (fun _ => Except.error "x") (Conn.ok emptyDb) [] "list gadgets").1.method
      ≠ some "keyword_fallback" := by
  constructor
  · rfl
  · decide

/-- C1 (amended): whenever the oracle path does not succeed with at least
one row (API error, SQL execution error, or a zero-row success), the
combined search returns the fallback result, whose method field is
combined_keyword_fallback and whose attempted_sql field is the cleaned
candidate SQL of the oracle path, or the N/A placeholder when none was
produced. -/
theorem C1_fallback_method_and_attempted_sql (oracle : OracleOutcome)
    (execSql : String → Except String (List Row)) (conn : Conn) (cache : Cache)
    (question : String)
    (h : ¬((natural_language_to_sql oracle execSql conn cache question).1.status = "success"
        ∧ 0 < (natural_language_to_sql oracle execSql conn cache question).1.count.getD 0)) :
    (combined_nlp_search oracle execSql conn cache question).1.method
      = some "combined_keyword_fallback"
    ∧ (combined_nlp_search oracle execSql conn cache question).1.attempted_sql
      = some ((natural_language_to_sql oracle execSql conn cache question).1.sql.getD "N/A") := by
  have hcond : ((natural_language_to_sql oracle execSql conn cache question).1.status == "success"
      && decide (0 < (natural_language_to_sql oracle execSql conn cache question).1.count.getD 0))
      = false := by
    by_contra hc
    rw [Bool.not_eq_false, Bool.and_eq_true, beq_iff_eq, decide_eq_true_eq] at hc
    exact h hc
  unfold combined_nlp_search
  rw [if_neg]
  · exact ⟨rfl, rfl⟩
  · rw [hcond]
    exact Bool.false_ne_true

/-- C1 witness: the amended statement evaluated on a concrete API-error
run. -/
theorem C1_fallback_method_and_attempted_sql_witness :
    ¬((natural_language_to_sql (OracleOutcome.apiError "down")
        (fun _ => Except.error "x") (Conn.ok emptyDb) [] "q").1.status = "success"
      ∧ 0 < (natural_language_to_sql (OracleOutcome.apiError "down")
        (fun _ => Except.error "x") (Conn.ok emptyDb) [] "q").1.count.getD 0)
    ∧ (combined_nlp_search (OracleOutcome.apiError "down")
        (fun _ => Except.error "x") (Conn.ok emptyDb) [] "q").1.method
      = some "combined_keyword_fallback"
    ∧ (combined_nlp_search (OracleOutcome.apiError "down")
        (fun _ => Except.error "x") (Conn.ok emptyDb) [] "q").1.attempted_sql
      = some ((natural_language_to_sql (OracleOutcome.apiError "down")
        (fun _ => Except.error "x") (Conn.ok emptyDb) [] "q").1.sql.getD "N/A") :=
  ⟨by decide,
   C1_fallback_method_and_attempted_sql (OracleOutcome.apiError "down")
     (fun _ => Except.error "x") (Conn.ok emptyDb) [] "q" (by decide)⟩

/-! ## C4 -/

/-- C4 counterexample: a store with one activated AWS administrator and no
Notion licenses makes the AWS + Notion cross-reference produce a
status-none entry that carries no total_base (nor any other base-set
scalar), although the underlying base set (AWS administrators) is
nonempty. -/
theorem C4_counterexample :
    (_analyze_aws_notion_crossref (Conn.ok awsNoNotionDb)).status = "none"
    ∧ (_analyze_aws_notion_crossref (Conn.ok awsNoNotionDb)).total_base = none
    ∧ (_analyze_aws_notion_crossref (Conn.ok awsNoNotionDb)).count = some 0
    ∧ 0 < aws_admin_count awsNoNotionDb := by
  refine ⟨by decide, by decide, by decide, by decide⟩

/-- C4 (amended): the Lenovo + AWS cross-reference and the empty branch of
the Apple + AWS cross-reference carry total_base equal to the base-set
count; the AWS + Notion and the geographic cross-references never carry a
total_base scalar, whatever the store contents. -/
theorem C4_total_base_coverage (db : Database) (ql : String) (ea eg : CrossRef)
    (ha : _analyze_apple_aws_crossref (Conn.ok db) = some ea)
    (hanone : ea.status = "none")
    (hg : _analyze_geographic_aws_crossref ql (Conn.ok db) = some eg) :
    ea.total_base = some (apple_user_count db)
    ∧ eg.total_base = none
    ∧ (_analyze_lenovo_aws_crossref (Conn.ok db)).total_base = some (lenovo_user_count db)
    ∧ (_analyze_aws_notion_crossref (Conn.ok db)).total_base = none := by
  refine ⟨?_, ?_, ?_, ?_⟩
  · simp only [_analyze_apple_aws_crossref, runQ] at ha
    split at ha
    · rw [← Option.some.inj ha]
    · rw [← Option.some.inj ha] at hanone
      simp at hanone
  · unfold _analyze_geographic_aws_crossref at hg
    cases hj : strContains ql "japan" with
    | false =>
      rw [hj] at hg
      simp at hg
      by_cases hi : strContains ql "india" = true
      · simp [hi] at hg
      · simp [hi] at hg
    | true =>
      rw [hj] at hg
      simp only [runQ] at hg
      simp at hg
      split at hg
      · rw [← Option.some.inj hg]
      · rw [← Option.some.inj hg]
  · simp only [_analyze_lenovo_aws_crossref, runQ]
    split <;> rfl
  · simp only [_analyze_aws_notion_crossref, runQ]
    split <;> rfl

/-- C4 witness: the amended statement realized on the store with one Apple
laptop user and no portfolio rows, for the question japan aws. -/
theorem C4_total_base_coverage_witness :
    ({ type := "intersection", title := "Apple + AWS Admin", status := "none"
       count := some 0, total_base := some 1
       message := "None of the 1 Apple laptop users have AWS Administrator access"
       users := [] } : CrossRef).total_base = some (apple_user_count appleOnlyDb)
    ∧ ({ type := "intersection", title := "Japan + AWS Admin", status := "none"
         count := some 0
         message := "No AWS Administrators identified as Japan-based employees"
         note := some "Based on name patterns and .jp email domains"
         users := [] } : CrossRef).total_base = none
    ∧ (_analyze_lenovo_aws_crossref (Conn.ok appleOnlyDb)).total_base
        = some (lenovo_user_count appleOnlyDb)
    ∧ (_analyze_aws_notion_crossref (Conn.ok appleOnlyDb)).total_base = none :=
  C4_total_base_coverage appleOnlyDb "japan"
    { type := "intersection", title := "Apple + AWS Admin", status := "none"
      count := some 0, total_base := some 1
      message := "None of the 1 Apple laptop users have AWS Administrator access"
      users := [] }
    { type := "intersection", title := "Japan + AWS Admin", status := "none"
      count := some 0
      message := "No AWS Administrators identified as Japan-based employees"
      note := some "Based on name patterns and .jp email domains"
      users := [] }
    (by decide) (by decide) (by decide)

/-! ## C5 -/

/-- C5 counterexample: for the question apple aws admin on a raising
connection, the Apple + AWS analyzer swallows the failure and returns no
entry, so the cross-reference list is empty: the sub-query failure is
caught but not reported as an error-status entry anywhere. -/
theorem C5_counterexample :
    _generate_cross_references "apple aws admin" (Conn.failing "no such table") = []
    ∧ strContains "apple aws admin" "apple" = true
    ∧ strContains "apple aws admin" "aws" = true
    ∧ strContains "apple aws admin" "admin" = true := by
  refine ⟨by decide, by decide, by decide, by decide⟩

/-- C5 (amended): synthesis never aborts and always returns a complete
enriched result, and failures in the Lenovo + AWS analyzer, the AWS +
Notion analyzer and the breakdown are reported as error-status entries;
but failures inside the Apple + AWS and the geographic analyzers are
caught and silently dropped (they return no entry at all). -/
theorem C5_failure_reporting (m ql question : String) (r : NLResult) (conn : Conn)
    (hql : strContains ql "lenovo" = true) :
    (_analyze_lenovo_aws_crossref (Conn.failing m)).status = "error"
    ∧ (_analyze_lenovo_aws_crossref (Conn.failing m)).type = "error"
    ∧ (_analyze_aws_notion_crossref (Conn.failing m)).status = "error"
    ∧ _analyze_apple_aws_crossref (Conn.failing m) = none
    ∧ _analyze_geographic_aws_crossref ql (Conn.failing m) = none
    ∧ (_analyze_query_breakdown ql (Conn.failing m)).error = some m
    ∧ (_generate_comprehensive_insights question r conn).insights.isSome = true
    ∧ (_generate_comprehensive_insights question r conn).breakdown_data.isSome = true
    ∧ (_generate_comprehensive_insights question r conn).detailed_breakdown.isSome = true
    ∧ (_generate_comprehensive_insights question r conn).suggestions.isSome = true
    ∧ (_generate_comprehensive_insights question r conn).key_findings.isSome = true
    ∧ (_generate_comprehensive_insights question r conn).cross_references.isSome = true
    ∧ (_generate_comprehensive_insights question r conn).analysis_type.isSome = true
    ∧ (_generate_comprehensive_insights question r conn).comprehensive_summary.isSome = true := by
  refine ⟨rfl, rfl, rfl, rfl, ?_, ?_, rfl, rfl, rfl, rfl, rfl, rfl, rfl, rfl⟩
  · simp only [_analyze_geographic_aws_crossref, runQ]
    rw [ite_self]
  · simp only [_analyze_query_breakdown, hql, if_true, runQ]

/-- C5 witness: the amended statement realized for a failing connection and
the question lenovo aws admin. -/
theorem C5_failure_reporting_witness :
    strContains "lenovo aws admin" "lenovo" = true
    ∧ (_analyze_lenovo_aws_crossref (Conn.failing "boom")).status = "error"
    ∧ (_analyze_query_breakdown "lenovo aws admin" (Conn.failing "boom")).error = some "boom"
    ∧ _analyze_apple_aws_crossref (Conn.failing "boom") = none :=
  ⟨by decide,
   (C5_failure_reporting "boom" "lenovo aws admin" "q" { status := "success" }
     (Conn.ok emptyDb) (by decide)).1,
   (C5_failure_reporting "boom" "lenovo aws admin" "q" { status := "success" }
     (Conn.ok emptyDb) (by decide)).2.2.2.2.2.1,
   (C5_failure_reporting "boom" "lenovo aws admin" "q" { status := "success" }
     (Conn.ok emptyDb) (by decide)).2.2.2.1⟩

/-! ## C2 -/

/-- C2: only the oracle path writes to the query cache, and only when the
candidate SQL executed successfully (any row count); the stored value is an
oracle-path success; the fallback path adds nothing to the cache; and a
cache-served result is always an oracle-path success, never a fallback
result. -/
theorem C2_cache_oracle_only (oracle : OracleOutcome)
    (execSql : String → Except String (List Row)) (conn : Conn) (cache : Cache)
    (question : String) (h : CacheGood cache) :
    CacheGood (natural_language_to_sql oracle execSql conn cache question).2
    ∧ ((natural_language_to_sql oracle execSql conn cache question).2 = cache
       ∨ ∃ v raw rows, oracle = OracleOutcome.ok raw
          ∧ execSql (cleanup_sql raw) = Except.ok rows
          ∧ (natural_language_to_sql oracle execSql conn cache question).2
              = (cache_key question, v) :: cache
          ∧ v.status = "success" ∧ v.method = some "openai_nl2sql")
    ∧ (combined_nlp_search oracle execSql conn cache question).2
        = (natural_language_to_sql oracle execSql conn cache question).2
    ∧ ((natural_language_to_sql oracle execSql conn cache question).1.cached = some true →
        oracleCachedResult (natural_language_to_sql oracle execSql conn cache question).1) := by
  have hcomb : (combined_nlp_search oracle execSql conn cache question).2
      = (natural_language_to_sql oracle execSql conn cache question).2 := by
    simp only [combined_nlp_search]
    split <;> rfl
  cases hl : List.lookup (cache_key question) cache with
  | some r =>
    have hr : natural_language_to_sql oracle execSql conn cache question
        = ({ r with cached := some true }, cache) := by
      unfold natural_language_to_sql
      rw [hl]
    refine ⟨by rw [hr]; exact h, Or.inl (by rw [hr]), hcomb, ?_⟩
    intro _
    rw [hr]
    exact h _ (lookup_mem hl)
  | none =>
    cases oracle with
    | apiError m =>
      have hr : natural_language_to_sql (OracleOutcome.apiError m) execSql conn cache question
          = ({ question := some question, error := some ("OpenAI API error: " ++ m)
               status := "api_error" }, cache) := by
        unfold natural_language_to_sql
        rw [hl]
      refine ⟨by rw [hr]; exact h, Or.inl (by rw [hr]), hcomb, ?_⟩
      intro hc
      rw [hr] at hc
      exact absurd hc (by simp)
    | ok raw =>
      cases he : execSql (cleanup_sql raw) with
      | error e =>
        have hr : natural_language_to_sql (OracleOutcome.ok raw) execSql conn cache question
            = ({ question := some question, sql := some (cleanup_sql raw)
                 error := some ("SQL execution error: " ++ e)
                 status := "sql_error" }, cache) := by
          unfold natural_language_to_sql
          rw [hl]
          dsimp only
          rw [he]
        refine ⟨by rw [hr]; exact h, Or.inl (by rw [hr]), hcomb, ?_⟩
        intro hc
        rw [hr] at hc
        exact absurd hc (by simp)
      | ok rows =>
        have hr : natural_language_to_sql (OracleOutcome.ok raw) execSql conn cache question
            = (_generate_comprehensive_insights question
                { question := some question, sql := some (cleanup_sql raw)
                  results := some (rows.map ResultItem.plain)
                  count := some (rows.map ResultItem.plain).length
                  method := some "openai_nl2sql", status := "success"
                  cached := some false } conn,
               (cache_key question,
                _generate_comprehensive_insights question
                  { question := some question, sql := some (cleanup_sql raw)
                    results := some (rows.map ResultItem.plain)
                    count := some (rows.map ResultItem.plain).length
                    method := some "openai_nl2sql", status := "success"
                    cached := some false } conn) :: cache) := by
          unfold natural_language_to_sql
          rw [hl]
          dsimp only
          rw [he]
        refine ⟨?_, Or.inr ⟨_, raw, rows, rfl, he, by rw [hr], rfl, rfl⟩, hcomb, ?_⟩
        · rw [hr]
          intro kv hkv
          rcases List.mem_cons.mp hkv with hhead | htail
          · rw [hhead]
            exact ⟨rfl, rfl⟩
          · exact h _ htail
        · intro hc
          rw [hr] at hc
          rw [(gci_preserves_base _ _ _).2.2.2.2.2.2] at hc
          simp at hc

/-- C2 witness: the cache invariant realized on a concrete API-error
run starting from the empty cache. -/
theorem C2_cache_oracle_only_witness :
    CacheGood ([] : Cache)
    ∧ CacheGood (natural_language_to_sql (OracleOutcome.apiError "down")
        (fun _ => Except.error "x") (Conn.ok emptyDb) [] "q").2
    ∧ (combined_nlp_search (OracleOutcome.apiError "down") (fun _ => Except.error "x")
        (Conn.ok emptyDb) [] "q").2
      = (natural_language_to_sql (OracleOutcome.apiError "down") (fun _ => Except.error "x")
        (Conn.ok emptyDb) [] "q").2 :=
  have hcg : CacheGood ([] : Cache) := fun kv hkv => absurd hkv (List.not_mem_nil kv)
  ⟨hcg,
   (C2_cache_oracle_only (OracleOutcome.apiError "down") (fun _ => Except.error "x")
     (Conn.ok emptyDb) [] "q" hcg).1,
   (C2_cache_oracle_only (OracleOutcome.apiError "down") (fun _ => Except.error "x")
     (Conn.ok emptyDb) [] "q" hcg).2.2.1⟩

/-! ## C3 -/

/-- C3: when the oracle path succeeds with at least one row on a question
not yet cached, the cache afterwards holds an entry under the
case-normalized question key, and a second call with the identical
question is served from the cache: it reports cached = true and returns
rows identical to the first result, whatever its own oracle, executor or
connection do. -/
theorem C3_cache_roundtrip (execSql : String → Except String (List Row)) (conn : Conn)
    (cache : Cache) (question raw : String) (rows : List Row)
    (oracle2 : OracleOutcome) (execSql2 : String → Except String (List Row)) (conn2 : Conn)
    (hfresh : List.lookup (cache_key question) cache = none)
    (hexec : execSql (cleanup_sql raw) = Except.ok rows)
    (hrows : 0 < rows.length) :
    (List.lookup (cache_key question)
        (natural_language_to_sql (OracleOutcome.ok raw) execSql conn cache question).2).isSome
      = true
    ∧ (natural_language_to_sql oracle2 execSql2 conn2
        (natural_language_to_sql (OracleOutcome.ok raw) execSql conn cache question).2
        question).1.cached = some true
    ∧ (natural_language_to_sql oracle2 execSql2 conn2
        (natural_language_to_sql (OracleOutcome.ok raw) execSql conn cache question).2
        question).1.results
      = (natural_language_to_sql (OracleOutcome.ok raw) execSql conn cache question).1.results
    ∧ (natural_language_to_sql (OracleOutcome.ok raw) execSql conn cache question).1.results
      = some (rows.map ResultItem.plain) := by
  have hsecond : ∀ (v : NLResult) (c : Cache), List.lookup (cache_key question) c = some v →
      natural_language_to_sql oracle2 execSql2 conn2 c question
        = ({ v with cached := some true }, c) := by
    intro v c hc
    unfold natural_language_to_sql
    rw [hc]
  have hr : natural_language_to_sql (OracleOutcome.ok raw) execSql conn cache question
      = (_generate_comprehensive_insights question
          { question := some question, sql := some (cleanup_sql raw)
            results := some (rows.map ResultItem.plain)
            count := some (rows.map ResultItem.plain).length
            method := some "openai_nl2sql", status := "success"
            cached := some false } conn,
         (cache_key question,
          _generate_comprehensive_insights question
            { question := some question, sql := some (cleanup_sql raw)
              results := some (rows.map ResultItem.plain)
              count := some (rows.map ResultItem.plain).length
              method := some "openai_nl2sql", status := "success"
              cached := some false } conn) :: cache) := by
    unfold natural_language_to_sql
    rw [hfresh]
    dsimp only
    rw [hexec]
  have hlook : List.lookup (cache_key question)
      (natural_language_to_sql (OracleOutcome.ok raw) execSql conn cache question).2
      = some (_generate_comprehensive_insights question
          { question := some question, sql := some (cleanup_sql raw)
            results := some (rows.map ResultItem.plain)
            count := some (rows.map ResultItem.plain).length
            method := some "openai_nl2sql", status := "success"
            cached := some false } conn) := by
    rw [hr]
    simp [List.lookup]
  have h2 := hsecond _ _ hlook
  refine ⟨?_, ?_, ?_, ?_⟩
  · rw [hlook]
    rfl
  · rw [h2]
  · rw [h2, hr]
  · rw [hr]
    rfl

/-- C3 witness: the cache round trip realized for the question users with
a one-row oracle answer, the second call running without any oracle. -/
theorem C3_cache_roundtrip_witness :
    List.lookup (cache_key "users") ([] : Cache) = none
    ∧ (natural_language_to_sql (OracleOutcome.apiError "down") (fun _ => Except.error "e")
        (Conn.ok emptyDb)
        (natural_language_to_sql (OracleOutcome.ok "SELECT 1")
          (fun _ => Except.ok [sampleOracleRow]) (Conn.ok emptyDb) [] "users").2
        "users").1.cached = some true :=
  ⟨rfl,
   (C3_cache_roundtrip (fun _ => Except.ok [sampleOracleRow]) (Conn.ok emptyDb) [] "users"
     "SELECT 1" [sampleOracleRow] (OracleOutcome.apiError "down") (fun _ => Except.error "e")
     (Conn.ok emptyDb) rfl rfl (by decide)).2.1⟩

/-! ## C9 -/

/-- C9: every result dict produced by the oracle path and by the keyword
fallback has count equal to the length of its results list, and the
property survives insight enrichment and the combined-search wrapper
(given it holds of whatever the cache already contains). -/
theorem C9_count_matches_results (oracle : OracleOutcome)
    (execSql : String → Except String (List Row)) (conn : Conn) (cache : Cache)
    (question query : String) (limit : Nat)
    (h : ∀ kv ∈ cache, CountOK kv.2) :
    CountOK (_keyword_fallback_search conn query limit)
    ∧ CountOK (natural_language_to_sql oracle execSql conn cache question).1
    ∧ CountOK (combined_nlp_search oracle execSql conn cache question).1 := by
  have hfb : CountOK (_keyword_fallback_search conn query limit) := by
    intro rs hrs
    cases conn with
    | ok db =>
      rw [← Option.some.inj hrs]
      rfl
    | failing m =>
      rw [← Option.some.inj hrs]
      rfl
  have hfb10 : CountOK (_keyword_fallback_search conn question 10) := by
    intro rs hrs
    cases conn with
    | ok db =>
      rw [← Option.some.inj hrs]
      rfl
    | failing m =>
      rw [← Option.some.inj hrs]
      rfl
  have hnl : CountOK (natural_language_to_sql oracle execSql conn cache question).1 := by
    cases hl : List.lookup (cache_key question) cache with
    | some r =>
      have hr : natural_language_to_sql oracle execSql conn cache question
          = ({ r with cached := some true }, cache) := by
        unfold natural_language_to_sql
        rw [hl]
      rw [hr]
      intro rs hrs
      exact h _ (lookup_mem hl) rs hrs
    | none =>
      cases oracle with
      | apiError m =>
        have hr : natural_language_to_sql (OracleOutcome.apiError m) execSql conn cache question
            = ({ question := some question, error := some ("OpenAI API error: " ++ m)
                 status := "api_error" }, cache) := by
          unfold natural_language_to_sql
          rw [hl]
        rw [hr]
        intro rs hrs
        exact absurd hrs (by simp)
      | ok raw =>
        cases he : execSql (cleanup_sql raw) with
        | error e =>
          have hr : natural_language_to_sql (OracleOutcome.ok raw) execSql conn cache question
              = ({ question := some question, sql := some (cleanup_sql raw)
                   error := some ("SQL execution error: " ++ e)
                   status := "sql_error" }, cache) := by
            unfold natural_language_to_sql
            rw [hl]
            dsimp only
            rw [he]
          rw [hr]
          intro rs hrs
          exact absurd hrs (by simp)
        | ok rows =>
          have hr : natural_language_to_sql (OracleOutcome.ok raw) execSql conn cache question
              = (_generate_comprehensive_insights question
                  { question := some question, sql := some (cleanup_sql raw)
                    results := some (rows.map ResultItem.plain)
                    count := some (rows.map ResultItem.plain).length
                    method := some "openai_nl2sql", status := "success"
                    cached := some false } conn,
                 (cache_key question,
                  _generate_comprehensive_insights question
                    { question := some question, sql := some (cleanup_sql raw)
                      results := some (rows.map ResultItem.plain)
                      count := some (rows.map ResultItem.plain).length
                      method := some "openai_nl2sql", status := "success"
                      cached := some false } conn) :: cache) := by
            unfold natural_language_to_sql
            rw [hl]
            dsimp only
            rw [he]
          rw [hr]
          intro rs hrs
          rw [(gci_preserves_base _ _ _).2.2.1] at hrs
          rw [(gci_preserves_base _ _ _).2.2.2.1]
          rw [← Option.some.inj hrs]
  refine ⟨hfb, hnl, ?_⟩
  simp only [combined_nlp_search]
  split
  · intro rs hrs
    exact hnl rs hrs
  · intro rs hrs
    exact hfb10 rs hrs

/-- C9 witness: the count invariant realized on a concrete fallback run
from the empty cache. -/
theorem C9_count_matches_results_witness :
    (∀ kv ∈ ([] : Cache), CountOK kv.2)
    ∧ CountOK (combined_nlp_search (OracleOutcome.apiError "down") (fun _ => Except.error "e")
        (Conn.ok appleOnlyDb) [] "apple").1 :=
  have h : ∀ kv ∈ ([] : Cache), CountOK kv.2 := fun kv hkv => absurd hkv (List.not_mem_nil kv)
  ⟨h,
   (C9_count_matches_results (OracleOutcome.apiError "down") (fun _ => Except.error "e")
     (Conn.ok appleOnlyDb) [] "apple" "apple" 10 h).2.2⟩


/-! ## C7: idempotence of the column-name sanitizer

The lemmas below characterize the shape of every sanitizer output
(`cleanShape`) and show each pipeline stage fixes such lists. -/

theorem noDbl_nil : noDbl [] = true := rfl

theorem noDbl_one (a : Char) : noDbl [a] = true := rfl

theorem noDbl_cons2 (a b : Char) (r : List Char) :
    noDbl (a :: b :: r) = (!(a == '_' && b == '_') && noDbl (b :: r)) := rfl

theorem noDbl_tail {a : Char} {l : List Char} (h : noDbl (a :: l) = true) : noDbl l = true := by
  cases l with
  | nil => rfl
  | cons b r =>
    rw [noDbl_cons2, Bool.and_eq_true] at h
    exact h.2

theorem collapse_nil : collapseUnderscores [] = [] := rfl

theorem collapse_one (a : Char) : collapseUnderscores [a] = [a] := rfl

theorem collapse_cons2 (a b : Char) (r : List Char) :
    collapseUnderscores (a :: b :: r)
      = if a == '_' && b == '_' then collapseUnderscores (b :: r)
        else a :: collapseUnderscores (b :: r) := rfl

theorem collapse_head? : ∀ l : List Char, (collapseUnderscores l).head? = l.head?
  | [] => rfl
  | [_] => rfl
  | a :: b :: r => by
    rw [collapse_cons2]
    by_cases h : (a == '_' && b == '_') = true
    · rw [if_pos h]
      rw [collapse_head? (b :: r)]
      rw [Bool.and_eq_true, beq_iff_eq, beq_iff_eq] at h
      rw [h.1, h.2]
      rfl
    · rw [if_neg h]
      rfl

theorem collapse_noDbl : ∀ l : List Char, noDbl (collapseUnderscores l) = true
  | [] => rfl
  | [_] => rfl
  | a :: b :: r => by
    rw [collapse_cons2]
    by_cases h : (a == '_' && b == '_') = true
    · rw [if_pos h]
      exact collapse_noDbl (b :: r)
    · rw [if_neg h]
      have ih := collapse_noDbl (b :: r)
      cases hc : collapseUnderscores (b :: r) with
      | nil => exact noDbl_one a
      | cons c cs =>
        have hh : (c :: cs).head? = (b :: r).head? := by
          rw [← hc]
          exact collapse_head? (b :: r)
        simp only [List.head?_cons, Option.some.injEq] at hh
        rw [noDbl_cons2, Bool.and_eq_true]
        constructor
        · rw [hh]
          cases hb : (a == '_' && b == '_') with
          | true => exact absurd hb h
          | false => rfl
        · rw [← hc]
          exact ih

theorem collapse_of_noDbl : ∀ l : List Char, noDbl l = true → collapseUnderscores l = l
  | [], _ => rfl
  | [_], _ => rfl
  | a :: b :: r, h => by
    rw [noDbl_cons2, Bool.and_eq_true] at h
    have hne : ¬(a == '_' && b == '_') = true := by
      intro hc
      rw [hc] at h
      simp at h
    rw [collapse_cons2, if_neg hne, collapse_of_noDbl (b :: r) h.2]

theorem mem_collapse {c : Char} : ∀ {l : List Char}, c ∈ collapseUnderscores l → c ∈ l
  | [], h => h
  | [_], h => h
  | a :: b :: r, h => by
    rw [collapse_cons2] at h
    by_cases hab : (a == '_' && b == '_') = true
    · rw [if_pos hab] at h
      exact List.mem_cons_of_mem a (mem_collapse h)
    · rw [if_neg hab] at h
      rcases List.mem_cons.mp h with rfl | h2
      · exact List.mem_cons_self _ _
      · exact List.mem_cons_of_mem a (mem_collapse h2)

theorem head?_dropWhile {p : Char → Bool} {a : Char} :
    ∀ {l : List Char}, (l.dropWhile p).head? = some a → p a = false
  | [], h => by simp [List.dropWhile] at h
  | b :: t, h => by
    rw [List.dropWhile_cons] at h
    by_cases hpb : p b = true
    · rw [if_pos hpb] at h
      exact head?_dropWhile h
    · rw [if_neg hpb] at h
      simp only [List.head?_cons, Option.some.injEq] at h
      rw [← h]
      exact Bool.not_eq_true _ ▸ hpb

theorem noDbl_dropWhile (p : Char → Bool) :
    ∀ {l : List Char}, noDbl l = true → noDbl (l.dropWhile p) = true
  | [], h => h
  | a :: t, h => by
    rw [List.dropWhile_cons]
    by_cases hpa : p a = true
    · rw [if_pos hpa]
      exact noDbl_dropWhile p (noDbl_tail h)
    · rw [if_neg hpa]
      exact h

theorem dropWhile_id_of_head {p : Char → Bool} :
    ∀ {l : List Char}, (∀ a, l.head? = some a → p a = false) → l.dropWhile p = l
  | [], _ => rfl
  | b :: t, h => by
    rw [List.dropWhile_cons, if_neg]
    rw [h b rfl]
    exact Bool.false_ne_true

theorem dropTrail_nil (p : Char → Bool) : dropTrailWhile p [] = [] := rfl

theorem dropTrail_cons_nil {p : Char → Bool} {rest : List Char} (a : Char)
    (h : dropTrailWhile p rest = []) :
    dropTrailWhile p (a :: rest) = if p a then [] else [a] := by
  simp only [dropTrailWhile]
  rw [h]

theorem dropTrail_cons_ne {p : Char → Bool} {rest : List Char} (a c : Char) (cs : List Char)
    (h : dropTrailWhile p rest = c :: cs) :
    dropTrailWhile p (a :: rest) = a :: c :: cs := by
  simp only [dropTrailWhile]
  rw [h]

theorem dropTrail_head {p : Char → Bool} :
    ∀ {l : List Char} {a : Char} {r : List Char},
      dropTrailWhile p l = a :: r → l.head? = some a
  | [], a, r, h => by simp [dropTrail_nil] at h
  | b :: t, a, r, h => by
    cases hrec : dropTrailWhile p t with
    | nil =>
      rw [dropTrail_cons_nil b hrec] at h
      by_cases hpb : p b = true
      · rw [if_pos hpb] at h
        cases h
      · rw [if_neg hpb] at h
        cases h
        rfl
    | cons c cs =>
      rw [dropTrail_cons_ne b c cs hrec] at h
      cases h
      rfl

theorem dropTrail_last {p : Char → Bool} :
    ∀ {l : List Char} {a : Char}, (dropTrailWhile p l).getLast? = some a → p a = false
  | [], a, h => by simp [dropTrail_nil] at h
  | b :: t, a, h => by
    cases hrec : dropTrailWhile p t with
    | nil =>
      rw [dropTrail_cons_nil b hrec] at h
      by_cases hpb : p b = true
      · rw [if_pos hpb] at h
        simp at h
      · rw [if_neg hpb] at h
        simp only [List.getLast?_singleton, Option.some.injEq] at h
        rw [← h]
        exact Bool.not_eq_true _ ▸ hpb
    | cons c cs =>
      rw [dropTrail_cons_ne b c cs hrec] at h
      rw [List.getLast?_cons_cons, ← hrec] at h
      exact dropTrail_last h

theorem noDbl_dropTrail {p : Char → Bool} :
    ∀ {l : List Char}, noDbl l = true → noDbl (dropTrailWhile p l) = true
  | [], h => h
  | b :: t, h => by
    cases hrec : dropTrailWhile p t with
    | nil =>
      rw [dropTrail_cons_nil b hrec]
      by_cases hpb : p b = true
      · rw [if_pos hpb]
        rfl
      · rw [if_neg hpb]
        exact noDbl_one b
    | cons c cs =>
      rw [dropTrail_cons_ne b c cs hrec]
      have hhead : t.head? = some c := dropTrail_head hrec
      cases t with
      | nil => cases hhead
      | cons d t' =>
        simp only [List.head?_cons, Option.some.injEq] at hhead
        subst hhead
        rw [noDbl_cons2, Bool.and_eq_true]
        constructor
        · rw [noDbl_cons2, Bool.and_eq_true] at h
          exact h.1
        · rw [← hrec]
          exact noDbl_dropTrail (noDbl_tail h)

theorem mem_dropTrail {p : Char → Bool} {c : Char} :
    ∀ {l : List Char}, c ∈ dropTrailWhile p l → c ∈ l
  | [], h => h
  | b :: t, h => by
    cases hrec : dropTrailWhile p t with
    | nil =>
      rw [dropTrail_cons_nil b hrec] at h
      by_cases hpb : p b = true
      · rw [if_pos hpb] at h
        cases h
      · rw [if_neg hpb] at h
        rcases List.mem_singleton.mp h with rfl
        exact List.mem_cons_self _ _
    | cons d ds =>
      rw [dropTrail_cons_ne b d ds hrec] at h
      rcases List.mem_cons.mp h with rfl | h2
      · exact List.mem_cons_self _ _
      · rw [← hrec] at h2
        exact List.mem_cons_of_mem b (mem_dropTrail h2)

theorem dropTrail_id_of_last {p : Char → Bool} :
    ∀ {l : List Char}, (∀ a, l.getLast? = some a → p a = false) → dropTrailWhile p l = l
  | [], _ => rfl
  | b :: t, h => by
    cases t with
    | nil =>
      rw [dropTrail_cons_nil b (dropTrail_nil p)]
      rw [if_neg]
      rw [h b rfl]
      exact Bool.false_ne_true
    | cons d t' =>
      have ht : dropTrailWhile p (d :: t') = d :: t' := by
        apply dropTrail_id_of_last
        intro a ha
        exact h a ((List.getLast?_cons_cons).symm ▸ ha)
      rw [dropTrail_cons_ne b d t' ht]

theorem strip_head {p : Char → Bool} {l : List Char} {a : Char} {r : List Char}
    (h : stripWhile p l = a :: r) : p a = false := by
  unfold stripWhile at h
  have := dropTrail_head h
  exact head?_dropWhile this

theorem strip_last {p : Char → Bool} {l : List Char} {a : Char}
    (h : (stripWhile p l).getLast? = some a) : p a = false :=
  dropTrail_last h

theorem noDbl_strip (p : Char → Bool) {l : List Char} (h : noDbl l = true) :
    noDbl (stripWhile p l) = true :=
  noDbl_dropTrail (noDbl_dropWhile p h)

theorem mem_strip {p : Char → Bool} {c : Char} {l : List Char}
    (h : c ∈ stripWhile p l) : c ∈ l :=
  (List.dropWhile_sublist p).mem (mem_dropTrail h)

theorem strip_id {p : Char → Bool} {l : List Char}
    (hh : ∀ a, l.head? = some a → p a = false)
    (hl : ∀ a, l.getLast? = some a → p a = false) : stripWhile p l = l := by
  unfold stripWhile
  rw [dropWhile_id_of_head hh]
  exact dropTrail_id_of_last hl

theorem keep_not_ws {c : Char} (h : keepChar c = true) : c.isWhitespace = false := by
  cases hw : c.isWhitespace with
  | false => rfl
  | true =>
    exfalso
    simp only [Char.isWhitespace] at hw
    rcases Bool.or_eq_true_iff.mp hw with hw' | h4
    · rcases Bool.or_eq_true_iff.mp hw' with hw'' | h3
      · rcases Bool.or_eq_true_iff.mp hw'' with h1 | h2
        · rw [of_decide_eq_true h1] at h
          exact absurd h (by decide)
        · rw [of_decide_eq_true h2] at h
          exact absurd h (by decide)
      · rw [of_decide_eq_true h3] at h
        exact absurd h (by decide)
    · rw [of_decide_eq_true h4] at h
      exact absurd h (by decide)

theorem keep_subst (c : Char) : keepChar (substChar c) = true := by
  unfold substChar
  by_cases h : keepChar c = true
  · rw [if_pos h]
    exact h
  · rw [if_neg h]
    decide

theorem digit_not_us {c : Char} (h : c.isDigit = true) : (c == '_') = false := by
  cases hb : (c == '_') with
  | false => rfl
  | true =>
    have : c = '_' := by simpa using hb
    rw [this] at h
    exact absurd h (by decide)

theorem head?_mem {a : Char} : ∀ {l : List Char}, l.head? = some a → a ∈ l
  | [], h => by cases h
  | b :: t, h => by
    simp only [List.head?_cons, Option.some.injEq] at h
    rw [h]
    exact List.mem_cons_self _ _

theorem getLast?_mem {a : Char} : ∀ {l : List Char}, l.getLast? = some a → a ∈ l
  | [], h => by cases h
  | [b], h => by
    simp only [List.getLast?_singleton, Option.some.injEq] at h
    rw [← h]
    exact List.mem_cons_self _ _
  | b :: c :: t, h => by
    rw [List.getLast?_cons_cons] at h
    exact List.mem_cons_of_mem b (getLast?_mem h)

theorem map_id_of {f : Char → Char} :
    ∀ {l : List Char}, (∀ c ∈ l, f c = c) → l.map f = l
  | [], _ => rfl
  | b :: t, h => by
    rw [List.map_cons, h b (List.mem_cons_self _ _),
      map_id_of fun c hc => h c (List.mem_cons_of_mem b hc)]

theorem headNot_spec {p : Char → Bool} {l : List Char} {a : Char}
    (hn : headNot p l = true) (h : l.head? = some a) : p a = false := by
  cases l with
  | nil => cases h
  | cons b t =>
    simp only [List.head?_cons, Option.some.injEq] at h
    unfold headNot at hn
    rw [← h]
    exact (Bool.not_eq_true' _).mp hn

theorem lastNot_spec {p : Char → Bool} {l : List Char} {a : Char}
    (hn : lastNot p l = true) (h : l.getLast? = some a) : p a = false := by
  unfold lastNot at hn
  rw [h] at hn
  exact (Bool.not_eq_true' _).mp hn

theorem headNot_of_spec {p : Char → Bool} {l : List Char}
    (h : ∀ a, l.head? = some a → p a = false) : headNot p l = true := by
  cases l with
  | nil => rfl
  | cons b t =>
    unfold headNot
    rw [(Bool.not_eq_true' _)]
    exact h b rfl

theorem lastNot_of_spec {p : Char → Bool} {l : List Char}
    (h : ∀ a, l.getLast? = some a → p a = false) : lastNot p l = true := by
  unfold lastNot
  cases hg : l.getLast? with
  | none => rfl
  | some a =>
    rw [(Bool.not_eq_true' _)]
    exact h a hg

theorem cleanShape_of {l : List Char}
    (hkeep : l.all keepChar = true) (hnd : noDbl l = true)
    (hh : headNot (fun c => c == '_') l = true) (hhd : headNot Char.isDigit l = true)
    (hl : lastNot (fun c => c == '_') l = true) (hne : l.isEmpty = false) :
    cleanShape l = true := by
  unfold cleanShape
  rw [hkeep, hnd, hh, hhd, hl, hne]
  rfl

theorem cleanShape_split {l : List Char} (h : cleanShape l = true) :
    l.all keepChar = true ∧ noDbl l = true
    ∧ headNot (fun c => c == '_') l = true ∧ headNot Char.isDigit l = true
    ∧ lastNot (fun c => c == '_') l = true ∧ l.isEmpty = false := by
  unfold cleanShape at h
  simp only [Bool.and_eq_true] at h
  obtain ⟨⟨⟨⟨⟨h1, h2⟩, h3⟩, h4⟩, h5⟩, h6⟩ := h
  exact ⟨h1, h2, h3, h4, h5, (Bool.not_eq_true' _).mp h6⟩

theorem cleanShape_finalize (c4 : List Char)
    (hkeep4 : ∀ c ∈ c4, keepChar c = true)
    (hnd4 : noDbl c4 = true)
    (hh : headNot (fun c => c == '_') c4 = true)
    (hl : lastNot (fun c => c == '_') c4 = true) :
    cleanShape (clean_finalize c4) = true := by
  cases c4 with
  | nil => decide
  | cons a t =>
    unfold clean_finalize
    dsimp only
    by_cases hdig : a.isDigit = true
    · rw [if_pos hdig]
      rw [show ('c' :: 'o' :: 'l' :: '_' :: a :: t).isEmpty = false from rfl]
      rw [if_neg Bool.false_ne_true]
      apply cleanShape_of
      · rw [List.all_eq_true]
        intro c hcm
        rcases List.mem_cons.mp hcm with rfl | hcm
        · decide
        rcases List.mem_cons.mp hcm with rfl | hcm
        · decide
        rcases List.mem_cons.mp hcm with rfl | hcm
        · decide
        rcases List.mem_cons.mp hcm with rfl | hcm
        · decide
        exact hkeep4 c hcm
      · rw [noDbl_cons2, noDbl_cons2, noDbl_cons2, noDbl_cons2]
        rw [digit_not_us hdig, hnd4]
        decide
      · rfl
      · rfl
      · apply lastNot_of_spec
        intro x hx
        rw [List.getLast?_cons_cons, List.getLast?_cons_cons, List.getLast?_cons_cons,
          List.getLast?_cons_cons] at hx
        exact lastNot_spec (p := fun c => c == '_') hl hx
      · rfl
    · rw [if_neg hdig]
      rw [show (a :: t).isEmpty = false from rfl]
      rw [if_neg Bool.false_ne_true]
      apply cleanShape_of
      · rw [List.all_eq_true]
        exact hkeep4
      · exact hnd4
      · exact hh
      · dsimp only [headNot]
        have hdf : a.isDigit = false := by
          cases hb : a.isDigit with
          | false => rfl
          | true => exact absurd hb hdig
        rw [hdf]
        rfl
      · exact hl
      · rfl

theorem cleanShape_clean (cs : List Char) :
    cleanShape (clean_column_name_chars cs) = true := by
  have hkeep4 : ∀ c ∈ stripWhile (fun c => c == '_')
      (collapseUnderscores ((stripWhile Char.isWhitespace cs).map substChar)),
      keepChar c = true := by
    intro c hc
    obtain ⟨d, _, rfl⟩ := List.mem_map.mp (mem_collapse (mem_strip hc))
    exact keep_subst d
  have hnd4 : noDbl (stripWhile (fun c => c == '_')
      (collapseUnderscores ((stripWhile Char.isWhitespace cs).map substChar))) = true :=
    noDbl_strip _ (collapse_noDbl _)
  have hh4 : headNot (fun c => c == '_') (stripWhile (fun c => c == '_')
      (collapseUnderscores ((stripWhile Char.isWhitespace cs).map substChar))) = true := by
    apply headNot_of_spec
    intro a ha
    cases hX : stripWhile (fun c => c == '_')
        (collapseUnderscores ((stripWhile Char.isWhitespace cs).map substChar)) with
    | nil =>
      rw [hX] at ha
      cases ha
    | cons b t =>
      rw [hX] at ha
      simp only [List.head?_cons, Option.some.injEq] at ha
      rw [← ha]
      exact strip_head (p := fun c => c == '_') hX
  have hl4 : lastNot (fun c => c == '_') (stripWhile (fun c => c == '_')
      (collapseUnderscores ((stripWhile Char.isWhitespace cs).map substChar))) = true :=
    lastNot_of_spec (fun a ha => strip_last (p := fun c => c == '_') ha)
  simp only [clean_column_name_chars]
  exact cleanShape_finalize _ hkeep4 hnd4 hh4 hl4

theorem clean_fixed {l : List Char} (h : cleanShape l = true) :
    clean_column_name_chars l = l := by
  obtain ⟨hall, hnd, hh, hhd, hl, hne⟩ := cleanShape_split h
  have hkeep : ∀ c ∈ l, keepChar c = true := List.all_eq_true.mp hall
  have h1 : stripWhile Char.isWhitespace l = l :=
    strip_id (fun a ha => keep_not_ws (hkeep a (head?_mem ha)))
      (fun a ha => keep_not_ws (hkeep a (getLast?_mem ha)))
  have h2 : l.map substChar = l :=
    map_id_of fun c hc => by
      unfold substChar
      rw [if_pos (hkeep c hc)]
  have h3 : collapseUnderscores l = l := collapse_of_noDbl l hnd
  have h4 : stripWhile (fun c => c == '_') l = l :=
    strip_id (fun a ha => headNot_spec (p := fun c => c == '_') hh ha)
      (fun a ha => lastNot_spec (p := fun c => c == '_') hl ha)
  have h5 : clean_finalize l = l := by
    cases l with
    | nil => simp at hne
    | cons a t =>
      unfold clean_finalize
      dsimp only
      have hdig : a.isDigit = false := headNot_spec hhd rfl
      rw [hdig]
      simp only [Bool.false_eq_true, if_false]
      rw [show (a :: t).isEmpty = false from rfl]
      simp only [Bool.false_eq_true, if_false]
  simp only [clean_column_name_chars]
  rw [h1, h2, h3, h4, h5]

/-- C7: the column-name sanitizer is idempotent: sanitizing an already
sanitized name changes nothing. -/
theorem C7_clean_column_name_idempotent (s : String) :
    clean_column_name (clean_column_name s) = clean_column_name s := by
  unfold clean_column_name
  exact congrArg String.mk (clean_fixed (cleanShape_clean s.data))
